import Mathlib

/-!
# Verification of the DTVM EVM host bridge and gas transformer

A shallow embedding of the EVM host-function bridge of `dtvmcore_rust`
(`src/evm/{error,utils,traits}.rs` and `src/evm/host_functions/*.rs`) and of
the gas-metering transformer surface (`src/gas_metering/transform.rs`),
together with theorems settling the specification claims about them.

Modelling conventions:
* a guest byte is a `Nat` (< 256 for well-formed data); buffers are `List Nat`;
* machine integers `i32`/`i64` are `Int`; the Rust cast `x as u32` is
  `u32ofI32` (two's-complement reinterpretation, `x mod 2^32`);
* the WASM engine (`ZenInstance`, out of the verified sources) is modelled from
  the spec as an abstract bounds predicate `validate_wasm_addr` plus a byte map;
* each fallible host primitive is a state transformer
  `Inst → Except HostFunctionError α × Inst` so that partial memory writes
  preceding an error remain observable.
-/

/-- Guest buffers: sequences of bytes, each byte a natural number. -/
abbrev Bytes := List Nat

/-- The Rust cast `x as u32` on an `i32` value: two's-complement
reinterpretation of `x` as an unsigned 32-bit number. -/
def u32ofI32 (x : Int) : Nat := (x % (2 : Int) ^ 32).toNat

/-- Read `length` consecutive bytes of the byte map `mem` starting at `offset`. -/
def readRange (mem : Nat → Nat) (offset length : Nat) : Bytes :=
  (List.range length).map (fun i => mem (offset + i))

/-- Overwrite the byte map `mem` with `data` starting at `offset`
(the effect of `std::ptr::copy_nonoverlapping` in `write_bytes`). -/
def writeRange (mem : Nat → Nat) (offset : Nat) (data : Bytes) : Nat → Nat :=
  fun i => if offset ≤ i ∧ i < offset + data.length then data.getD (i - offset) 0 else mem i

/-! ## Error taxonomy (`src/evm/error.rs`) -/

/-- `HostFunctionError` of `error.rs`: the single error kind crossing the bridge. -/
inductive HostFunctionError where
  | OutOfBounds (offset length : Nat) (message function : String)
  | InvalidParameter (param value message function : String)
  | ContextNotFound (message function : String)
  | MemoryAccessError (message function : String)
  | ExecutionError (message function : String)
  | GasError (message function : String) (gas_requested gas_available : Option Int)
  | StorageError (message function : String) (key : Option String)
  | CallError (message function : String) (target_address : Option String)
  | CryptoError (message function operation : String)
  | ArithmeticError (message function operation : String)
  deriving DecidableEq, Repr

namespace HostFunctionError

/-- `HostFunctionError::function()`: the function name recorded in the error. -/
def function : HostFunctionError → String
  | OutOfBounds _ _ _ f => f
  | InvalidParameter _ _ _ f => f
  | ContextNotFound _ f => f
  | MemoryAccessError _ f => f
  | ExecutionError _ f => f
  | GasError _ f _ _ => f
  | StorageError _ f _ => f
  | CallError _ f _ => f
  | CryptoError _ f _ => f
  | ArithmeticError _ f _ => f

/-- `HostFunctionError::message()`. -/
def message : HostFunctionError → String
  | OutOfBounds _ _ m _ => m
  | InvalidParameter _ _ m _ => m
  | ContextNotFound m _ => m
  | MemoryAccessError m _ => m
  | ExecutionError m _ => m
  | GasError m _ _ _ => m
  | StorageError m _ _ => m
  | CallError m _ _ => m
  | CryptoError m _ _ => m
  | ArithmeticError m _ _ => m

/-- `HostFunctionError::category()`. -/
def category : HostFunctionError → String
  | OutOfBounds _ _ _ _ => "memory"
  | InvalidParameter _ _ _ _ => "parameter"
  | ContextNotFound _ _ => "context"
  | MemoryAccessError _ _ => "memory"
  | ExecutionError _ _ => "execution"
  | GasError _ _ _ _ => "gas"
  | StorageError _ _ _ => "storage"
  | CallError _ _ _ => "call"
  | CryptoError _ _ _ => "crypto"
  | ArithmeticError _ _ _ => "arithmetic"

end HostFunctionError

/-- `out_of_bounds_error`: helper building an out-of-bounds error; the
`function` field is the literal placeholder string. -/
def out_of_bounds_error (offset length : Nat) (context : String) : HostFunctionError :=
  .OutOfBounds offset length ("Out of bounds in " ++ context) "unknown"

/-- `out_of_bounds_error_with_function`. -/
def out_of_bounds_error_with_function (offset length : Nat) (context function : String) :
    HostFunctionError :=
  .OutOfBounds offset length ("Out of bounds in " ++ context) function

/-- `invalid_parameter_error`. -/
def invalid_parameter_error (param value context : String) : HostFunctionError :=
  .InvalidParameter param value ("Invalid parameter in " ++ context) "unknown"

/-- `invalid_parameter_error_with_function`. -/
def invalid_parameter_error_with_function (param value context function : String) :
    HostFunctionError :=
  .InvalidParameter param value ("Invalid parameter in " ++ context) function

/-- The function field of an error result, `none` on success. -/
def errFunctionOf {α : Type} : Except HostFunctionError α → Option String
  | .error e => some e.function
  | .ok _ => none

/-- The category of an error result, `none` on success. -/
def errCategoryOf {α : Type} : Except HostFunctionError α → Option String
  | .error e => some e.category
  | .ok _ => none

/-! ## Host-behaviour interface (`src/evm/traits.rs`) -/

/-- `ContractCallResult` of `traits.rs`. -/
structure ContractCallResult where
  success : Bool
  return_data : Bytes
  gas_used : Int
  deriving DecidableEq, Repr

/-- `ContractCreateResult` of `traits.rs`. -/
structure ContractCreateResult where
  success : Bool
  contract_address : Option Bytes
  return_data : Bytes
  gas_used : Int
  deriving DecidableEq, Repr

/-- The `EvmHost` trait of `traits.rs`, as a record of the host-supplied data
and behaviours the bridge consults.  Methods that only mutate host-internal
state (`storage_store`, `emit_log_event`, `finish`, `revert`, `invalid`) have no
observable effect on the quantities the claims are about and are modelled as
absent; `self_destruct` keeps its returned balance. -/
structure EvmHost where
  get_address : Bytes
  get_caller : Bytes
  get_tx_origin : Bytes
  get_call_value : Bytes
  get_chain_id : Bytes
  get_block_coinbase : Bytes
  get_block_prev_randao : Bytes
  get_base_fee : Bytes
  get_blob_base_fee : Bytes
  get_tx_gas_price : Bytes
  get_block_number : Int
  get_block_hash : Int → Option Bytes
  get_external_balance : Bytes → Bytes
  get_external_code_size : Bytes → Option Int
  get_external_code_hash : Bytes → Option Bytes
  external_code_copy : Bytes → Option Bytes
  call_data : Bytes
  code : Bytes
  return_data : Bytes
  storage_load : Bytes → Bytes
  sha256 : Bytes → Bytes
  keccak256 : Bytes → Bytes
  self_destruct : Bytes → Bytes
  call_contract : Bytes → Bytes → Bytes → Bytes → Int → ContractCallResult
  call_code : Bytes → Bytes → Bytes → Bytes → Int → ContractCallResult
  call_delegate : Bytes → Bytes → Bytes → Int → ContractCallResult
  call_static : Bytes → Bytes → Bytes → Int → ContractCallResult
  create_contract :
    Bytes → Bytes → Bytes → Bytes → Int → Option Bytes → Bool → ContractCreateResult

/-! ## The WASM instance (engine side, modelled from the spec) -/

/-- Modelled from the spec: the engine interface consumed by the bridge
(`ZenInstance`, not under the verified sources).  `validate_wasm_addr` is the
engine's opaque bounds predicate, `memData` the guest linear memory,
`exitCode` records a requested engine exit, `gas_left` the engine gas counter. -/
structure Inst where
  validate_wasm_addr : Nat → Nat → Bool
  memData : Nat → Nat
  extra_ctx : EvmHost
  gas_left : Nat
  exitCode : Option Int

/-! ## Memory accessor (`src/evm/utils.rs`) -/

/-- `MemoryAccessor::validate_range`: delegates to the engine predicate. -/
def validate_range (inst : Inst) (offset length : Nat) : Bool :=
  inst.validate_wasm_addr offset length

/-- `MemoryAccessor::read_bytes`. -/
def read_bytes (inst : Inst) (offset length : Nat) : Except HostFunctionError Bytes :=
  if !(validate_range inst offset length) then
    .error (out_of_bounds_error offset length "read_bytes")
  else
    .ok (readRange inst.memData offset length)

/-- `MemoryAccessor::write_bytes`, returned together with the instance state so
that mutations preceding an error stay observable. -/
def write_bytes (inst : Inst) (offset : Nat) (data : Bytes) :
    Except HostFunctionError Unit × Inst :=
  if !(validate_range inst offset data.length) then
    (.error (out_of_bounds_error offset data.length "write_bytes"), inst)
  else
    (.ok (), { inst with memData := writeRange inst.memData offset data })

/-- `MemoryAccessor::read_bytes32`. -/
def read_bytes32 (inst : Inst) (offset : Nat) : Except HostFunctionError Bytes :=
  read_bytes inst offset 32

/-- `MemoryAccessor::write_bytes32`. -/
def write_bytes32 (inst : Inst) (offset : Nat) (data : Bytes) :
    Except HostFunctionError Unit × Inst :=
  write_bytes inst offset data

/-- `MemoryAccessor::read_address`. -/
def read_address (inst : Inst) (offset : Nat) : Except HostFunctionError Bytes :=
  read_bytes inst offset 20

/-- `MemoryAccessor::write_address`. -/
def write_address (inst : Inst) (offset : Nat) (data : Bytes) :
    Except HostFunctionError Unit × Inst :=
  write_bytes inst offset data

/-- `MemoryAccessor::read_bytes_vec`. -/
def read_bytes_vec (inst : Inst) (offset length : Nat) : Except HostFunctionError Bytes :=
  read_bytes inst offset length

/-- `validate_offset_for_type` of `utils.rs`. -/
def validate_offset_for_type (inst : Inst) (offset : Int) (type_size : Nat)
    (type_name : String) : Except HostFunctionError Nat :=
  if offset < 0 then
    .error (out_of_bounds_error (u32ofI32 offset) type_size
      ("negative offset for " ++ type_name))
  else
    let offset_u32 := offset.toNat
    if !(validate_range inst offset_u32 type_size) then
      .error (out_of_bounds_error offset_u32 type_size
        ("invalid memory access for " ++ type_name))
    else
      .ok offset_u32

/-- `validate_address_param` of `utils.rs`. -/
def validate_address_param (inst : Inst) (offset : Int) : Except HostFunctionError Nat :=
  validate_offset_for_type inst offset 20 "address"

/-- `validate_bytes32_param` of `utils.rs`. -/
def validate_bytes32_param (inst : Inst) (offset : Int) : Except HostFunctionError Nat :=
  validate_offset_for_type inst offset 32 "bytes32"

/-- `validate_data_param` of `utils.rs` (the call sites additionally pass a
context-name argument that the `utils.rs` implementation does not take; it is
dropped here). -/
def validate_data_param (inst : Inst) (offset length : Int) :
    Except HostFunctionError (Nat × Nat) :=
  if offset < 0 then
    .error (out_of_bounds_error (u32ofI32 offset) (u32ofI32 length) "negative data offset")
  else if length < 0 then
    .error (out_of_bounds_error (u32ofI32 offset) (u32ofI32 length) "negative data length")
  else
    let offset_u32 := offset.toNat
    let length_u32 := length.toNat
    if !(validate_range inst offset_u32 length_u32) then
      .error (out_of_bounds_error offset_u32 length_u32 "invalid memory access for data")
    else
      .ok (offset_u32, length_u32)

/-! ## The bridge state monad

A host primitive is a state transformer over `Inst` that may fail; the state
component is kept on failure so that any memory mutation performed before the
error stays observable. -/

/-- A bridge computation. -/
def Bridge (α : Type) : Type := Inst → Except HostFunctionError α × Inst

/-- The `pure` of `Bridge`. -/
def Bridge.pureB {α : Type} (a : α) : Bridge α := fun inst => (.ok a, inst)

/-- The `bind` of `Bridge`: propagate the first error, thread the state. -/
def Bridge.bindB {α β : Type} (m : Bridge α) (f : α → Bridge β) : Bridge β := fun inst =>
  match m inst with
  | (.ok a, inst1) => f a inst1
  | (.error e, inst1) => (.error e, inst1)

instance : Monad Bridge where
  pure := Bridge.pureB
  bind := Bridge.bindB

/-- Lift a read-only, possibly failing operation into the bridge. -/
def liftRead {α : Type} (r : Inst → Except HostFunctionError α) : Bridge α :=
  fun inst => (r inst, inst)

/-- Consult the host behaviour interface (`instance.extra_ctx`). -/
def hostVal {α : Type} (f : EvmHost → α) : Bridge α :=
  fun inst => (.ok (f inst.extra_ctx), inst)

/-- `instance.get_gas_left()` (engine gas counter, cast to `i64`). -/
def getGasLeftB : Bridge Int :=
  fun inst => (.ok (Int.ofNat inst.gas_left), inst)

/-- A guest-memory write inside a bridge computation. -/
def writeB (offset : Nat) (data : Bytes) : Bridge Unit :=
  fun inst => write_bytes inst offset data

/-- `instance.exit(code)`: request an engine exit. -/
def exitB (code : Int) : Bridge Unit :=
  fun inst => (.ok (), { inst with exitCode := some code })

/-- Abort the computation with an error. -/
def errB {α : Type} (e : HostFunctionError) : Bridge α :=
  fun inst => (.error e, inst)

/-! ## Host primitive catalogue

One definition per host function of `src/evm/host_functions/*.rs` that touches
guest memory, in the order validate → read → consult host → write of the
source.  Host methods that only mutate host-internal state (`storage_store`,
`emit_log_event`, `finish`, `revert`) are consulted for their inputs and
otherwise dropped. -/

namespace Host

/-- `account.rs::get_address`. -/
def get_address (result_offset : Int) : Bridge Unit := do
  let offset ← liftRead (fun inst => validate_address_param inst result_offset)
  let address ← hostVal (fun h => h.get_address)
  writeB offset address

/-- `account.rs::get_caller`. -/
def get_caller (result_offset : Int) : Bridge Unit := do
  let offset ← liftRead (fun inst => validate_address_param inst result_offset)
  let caller ← hostVal (fun h => h.get_caller)
  writeB offset caller

/-- `account.rs::get_tx_origin`. -/
def get_tx_origin (result_offset : Int) : Bridge Unit := do
  let offset ← liftRead (fun inst => validate_address_param inst result_offset)
  let origin ← hostVal (fun h => h.get_tx_origin)
  writeB offset origin

/-- `account.rs::get_call_value`. -/
def get_call_value (result_offset : Int) : Bridge Unit := do
  let offset ← liftRead (fun inst => validate_bytes32_param inst result_offset)
  let call_value ← hostVal (fun h => h.get_call_value)
  writeB offset call_value

/-- `account.rs::get_chain_id`. -/
def get_chain_id (result_offset : Int) : Bridge Unit := do
  let offset ← liftRead (fun inst => validate_bytes32_param inst result_offset)
  let chain_id ← hostVal (fun h => h.get_chain_id)
  writeB offset chain_id

/-- `account.rs::get_external_balance`. -/
def get_external_balance (addr_offset result_offset : Int) : Bridge Unit := do
  let addr_offset_u32 ← liftRead (fun inst => validate_address_param inst addr_offset)
  let result_offset_u32 ← liftRead (fun inst => validate_bytes32_param inst result_offset)
  let address ← liftRead (fun inst => read_address inst addr_offset_u32)
  let balance ← hostVal (fun h => h.get_external_balance address)
  writeB result_offset_u32 balance

/-- `block.rs::get_block_coinbase`. -/
def get_block_coinbase (result_offset : Int) : Bridge Unit := do
  let offset ← liftRead (fun inst => validate_address_param inst result_offset)
  let coinbase ← hostVal (fun h => h.get_block_coinbase)
  writeB offset coinbase

/-- `block.rs::get_block_prev_randao`. -/
def get_block_prev_randao (result_offset : Int) : Bridge Unit := do
  let offset ← liftRead (fun inst => validate_bytes32_param inst result_offset)
  let prev_randao ← hostVal (fun h => h.get_block_prev_randao)
  writeB offset prev_randao

/-- `block.rs::get_block_hash`. -/
def get_block_hash (block_num : Int) (result_offset : Int) : Bridge Int := do
  let offset ← liftRead (fun inst => validate_bytes32_param inst result_offset)
  let current_block ← hostVal (fun h => h.get_block_number)
  if block_num < 0 ∨ current_block ≤ block_num then do
    writeB offset (List.replicate 32 0)
    pure 0
  else do
    let r ← hostVal (fun h => h.get_block_hash block_num)
    match r with
    | some hash => do
        writeB offset hash
        pure 1
    | none => do
        writeB offset (List.replicate 32 0)
        pure 0

/-- `fee.rs::get_base_fee`. -/
def get_base_fee (result_offset : Int) : Bridge Unit := do
  let offset ← liftRead (fun inst => validate_bytes32_param inst result_offset)
  let base_fee ← hostVal (fun h => h.get_base_fee)
  writeB offset base_fee

/-- `fee.rs::get_blob_base_fee`. -/
def get_blob_base_fee (result_offset : Int) : Bridge Unit := do
  let offset ← liftRead (fun inst => validate_bytes32_param inst result_offset)
  let blob_base_fee ← hostVal (fun h => h.get_blob_base_fee)
  writeB offset blob_base_fee

/-- `transaction.rs::get_tx_gas_price`. -/
def get_tx_gas_price (result_offset : Int) : Bridge Unit := do
  let offset ← liftRead (fun inst => validate_bytes32_param inst result_offset)
  let gas_price ← hostVal (fun h => h.get_tx_gas_price)
  writeB offset gas_price

/-- `transaction.rs::call_data_copy`: buffer of `length` zeros, the available
call-data bytes copied into its head, the whole buffer written. -/
def call_data_copy (result_offset data_offset length : Int) : Bridge Unit := do
  let p ← liftRead (fun inst => validate_data_param inst result_offset length)
  if data_offset < 0 then
    errB (out_of_bounds_error (u32ofI32 data_offset) p.2 "negative call data offset")
  else do
    let call_data ← hostVal (fun h => h.call_data)
    let available_from_offset :=
      if data_offset.toNat < call_data.length then call_data.length - data_offset.toNat else 0
    let copied_bytes := min (min p.2 available_from_offset) p.2
    let buffer :=
      (call_data.drop data_offset.toNat).take copied_bytes ++
        List.replicate (p.2 - copied_bytes) 0
    writeB p.1 buffer

/-- `code.rs::code_copy`: same buffer construction as `call_data_copy`, but the
final write takes only the copied prefix `buffer[..copied_bytes]`. -/
def code_copy (result_offset code_offset length : Int) : Bridge Unit := do
  let p ← liftRead (fun inst => validate_data_param inst result_offset length)
  if code_offset < 0 then
    errB (out_of_bounds_error (u32ofI32 code_offset) p.2 "negative code offset")
  else do
    let code ← hostVal (fun h => h.code)
    let available_from_offset :=
      if code_offset.toNat < code.length then code.length - code_offset.toNat else 0
    let copied_bytes := min (min p.2 available_from_offset) p.2
    let buffer :=
      (code.drop code_offset.toNat).take copied_bytes ++
        List.replicate (p.2 - copied_bytes) 0
    writeB p.1 (buffer.take copied_bytes)

/-- `code.rs::get_external_code_size`. -/
def get_external_code_size (addr_offset : Int) : Bridge Int := do
  let addr_offset_u32 ← liftRead (fun inst => validate_address_param inst addr_offset)
  let address ← liftRead (fun inst => read_address inst addr_offset_u32)
  let r ← hostVal (fun h => h.get_external_code_size address)
  match r with
  | some size => pure size
  | none => pure 0

/-- `code.rs::get_external_code_hash`. -/
def get_external_code_hash (addr_offset result_offset : Int) : Bridge Unit := do
  let addr_offset_u32 ← liftRead (fun inst => validate_address_param inst addr_offset)
  let result_offset_u32 ← liftRead (fun inst => validate_bytes32_param inst result_offset)
  let address ← liftRead (fun inst => read_address inst addr_offset_u32)
  let r ← hostVal (fun h => h.get_external_code_hash address)
  match r with
  | some hash => writeB result_offset_u32 hash
  | none => writeB result_offset_u32 (List.replicate 32 0)

/-- `code.rs::external_code_copy`. -/
def external_code_copy (addr_offset result_offset code_offset length : Int) : Bridge Unit := do
  let addr_offset_u32 ← liftRead (fun inst => validate_address_param inst addr_offset)
  let p ← liftRead (fun inst => validate_data_param inst result_offset length)
  if code_offset < 0 then
    errB (out_of_bounds_error (u32ofI32 code_offset) p.2 "negative external code offset")
  else do
    let address ← liftRead (fun inst => read_address inst addr_offset_u32)
    let r ← hostVal (fun h => h.external_code_copy address)
    match r with
    | some external_code =>
        let available_bytes :=
          if code_offset.toNat < external_code.length then
            external_code.length - code_offset.toNat
          else 0
        let copy_len := min available_bytes p.2
        let buffer :=
          (external_code.drop code_offset.toNat).take copy_len ++
            List.replicate (p.2 - copy_len) 0
        writeB p.1 buffer
    | none => writeB p.1 (List.replicate p.2 0)

/-- `control.rs::return_data_copy`. -/
def return_data_copy (result_offset data_offset length : Int) : Bridge Unit := do
  let p ← liftRead (fun inst => validate_data_param inst result_offset length)
  if data_offset < 0 then
    errB (out_of_bounds_error (u32ofI32 data_offset) p.2 "negative return data offset")
  else do
    let return_data ← hostVal (fun h => h.return_data)
    let available_bytes :=
      if data_offset.toNat < return_data.length then
        return_data.length - data_offset.toNat
      else 0
    let copy_len := min available_bytes p.2
    let buffer :=
      (return_data.drop data_offset.toNat).take copy_len ++
        List.replicate (p.2 - copy_len) 0
    writeB p.1 buffer

/-- `control.rs::finish` (`evmhost.finish` stores host-side return data only). -/
def finish (data_offset length : Int) : Bridge Unit := do
  let p ← liftRead (fun inst => validate_data_param inst data_offset length)
  let _return_data ← liftRead (fun inst => read_bytes_vec inst p.1 p.2)
  exitB 0

/-- `control.rs::revert`. -/
def revert (data_offset length : Int) : Bridge Unit := do
  let p ← liftRead (fun inst => validate_data_param inst data_offset length)
  let _revert_data ← liftRead (fun inst => read_bytes_vec inst p.1 p.2)
  exitB 1

/-- `control.rs::invalid`. -/
def invalid : Bridge Unit := exitB 2

/-- `control.rs::self_destruct`. -/
def self_destruct (addr_offset : Int) : Bridge Unit := do
  let addr_offset_u32 ← liftRead (fun inst => validate_address_param inst addr_offset)
  let recipient_address ← liftRead (fun inst => read_address inst addr_offset_u32)
  let _transferred_balance ← hostVal (fun h => h.self_destruct recipient_address)
  exitB 3

/-- `storage.rs::storage_store`: the i32 offsets are cast with `as u32`
(no negative-parameter validation); the value is handed to the host. -/
def storage_store (key_bytes_offset value_bytes_offset : Int) : Bridge Unit := do
  let _key_bytes ← liftRead (fun inst => read_bytes32 inst (u32ofI32 key_bytes_offset))
  let _value_bytes ← liftRead (fun inst => read_bytes32 inst (u32ofI32 value_bytes_offset))
  pure ()

/-- `storage.rs::storage_load`. -/
def storage_load (key_bytes_offset result_offset : Int) : Bridge Unit := do
  let key_bytes ← liftRead (fun inst => read_bytes32 inst (u32ofI32 key_bytes_offset))
  let value_bytes ← hostVal (fun h => h.storage_load key_bytes)
  writeB (u32ofI32 result_offset) value_bytes

/-- `crypto.rs::sha256`. -/
def sha256 (input_offset input_length result_offset : Int) : Bridge Unit := do
  let p ← liftRead (fun inst => validate_data_param inst input_offset input_length)
  let result_offset_u32 ← liftRead (fun inst => validate_bytes32_param inst result_offset)
  let input_data ← liftRead (fun inst => read_bytes_vec inst p.1 p.2)
  let hash_bytes ← hostVal (fun h => h.sha256 input_data)
  writeB result_offset_u32 hash_bytes

/-- `crypto.rs::keccak256`. -/
def keccak256 (input_offset input_length result_offset : Int) : Bridge Unit := do
  let p ← liftRead (fun inst => validate_data_param inst input_offset input_length)
  let result_offset_u32 ← liftRead (fun inst => validate_bytes32_param inst result_offset)
  let input_data ← liftRead (fun inst => read_bytes_vec inst p.1 p.2)
  let hash_bytes ← hostVal (fun h => h.keccak256 input_data)
  writeB result_offset_u32 hash_bytes

/-- `contract.rs::call_contract` (CALL): the caller handed to the host is
`evmhost.get_caller()`; the success code is 1 on success, 0 on failure. -/
def call_contract (gas addr_offset value_offset data_offset data_length : Int) :
    Bridge Int := do
  let addr_offset_u32 ← liftRead (fun inst => validate_address_param inst addr_offset)
  let value_offset_u32 ← liftRead (fun inst => validate_bytes32_param inst value_offset)
  let p ← liftRead (fun inst => validate_data_param inst data_offset data_length)
  let target_address ← liftRead (fun inst => read_address inst addr_offset_u32)
  let call_value ← liftRead (fun inst => read_bytes32 inst value_offset_u32)
  let call_data ← liftRead (fun inst => read_bytes_vec inst p.1 p.2)
  let caller_address ← hostVal (fun h => h.get_caller)
  let result ← hostVal
    (fun h => h.call_contract target_address caller_address call_value call_data gas)
  pure (if result.success then 1 else 0)

/-- `contract.rs::call_code` (CALLCODE). -/
def call_code (gas addr_offset value_offset data_offset data_length : Int) :
    Bridge Int := do
  let addr_offset_u32 ← liftRead (fun inst => validate_address_param inst addr_offset)
  let value_offset_u32 ← liftRead (fun inst => validate_bytes32_param inst value_offset)
  let p ← liftRead (fun inst => validate_data_param inst data_offset data_length)
  let target_address ← liftRead (fun inst => read_address inst addr_offset_u32)
  let call_value ← liftRead (fun inst => read_bytes32 inst value_offset_u32)
  let call_data ← liftRead (fun inst => read_bytes_vec inst p.1 p.2)
  let caller_address ← hostVal (fun h => h.get_caller)
  let result ← hostVal
    (fun h => h.call_code target_address caller_address call_value call_data gas)
  pure (if result.success then 1 else 0)

/-- `contract.rs::call_delegate` (DELEGATECALL). -/
def call_delegate (gas addr_offset data_offset data_length : Int) : Bridge Int := do
  let addr_offset_u32 ← liftRead (fun inst => validate_address_param inst addr_offset)
  let p ← liftRead (fun inst => validate_data_param inst data_offset data_length)
  let target_address ← liftRead (fun inst => read_address inst addr_offset_u32)
  let call_data ← liftRead (fun inst => read_bytes_vec inst p.1 p.2)
  let caller_address ← hostVal (fun h => h.get_caller)
  let result ← hostVal (fun h => h.call_delegate target_address caller_address call_data gas)
  pure (if result.success then 1 else 0)

/-- `contract.rs::call_static` (STATICCALL). -/
def call_static (gas addr_offset data_offset data_length : Int) : Bridge Int := do
  let addr_offset_u32 ← liftRead (fun inst => validate_address_param inst addr_offset)
  let p ← liftRead (fun inst => validate_data_param inst data_offset data_length)
  let target_address ← liftRead (fun inst => read_address inst addr_offset_u32)
  let call_data ← liftRead (fun inst => read_bytes_vec inst p.1 p.2)
  let caller_address ← hostVal (fun h => h.get_caller)
  let result ← hostVal (fun h => h.call_static target_address caller_address call_data gas)
  pure (if result.success then 1 else 0)

/-- The `let salt_offset_u32 = if is_create2 != 0 { Some(...) } else { None }`
step of `contract.rs::create_contract`. -/
def create_salt_validate (salt_offset is_create2 : Int) : Bridge (Option Nat) :=
  if is_create2 ≠ 0 then do
    let s ← liftRead (fun inst => validate_bytes32_param inst salt_offset)
    pure (some s)
  else
    pure none

/-- The `let _salt = if let Some(off) = ... { Some(read_bytes32(off)?) }` step
of `contract.rs::create_contract`. -/
def create_salt_read (salt_offset_u32 : Option Nat) : Bridge (Option Bytes) :=
  match salt_offset_u32 with
  | some s => do
      let sb ← liftRead (fun inst => read_bytes32 inst s)
      pure (some sb)
  | none => pure none

/-- `contract.rs::create_contract` (CREATE / CREATE2): the salt is validated
and read only when `is_create2 != 0`; on failure the zero address is written. -/
def create_contract (value_offset code_offset code_length data_offset data_length
    salt_offset is_create2 result_offset : Int) : Bridge Int := do
  let value_offset_u32 ← liftRead (fun inst => validate_bytes32_param inst value_offset)
  let pc ← liftRead (fun inst => validate_data_param inst code_offset code_length)
  let pd ← liftRead (fun inst => validate_data_param inst data_offset data_length)
  let salt_offset_u32 ← create_salt_validate salt_offset is_create2
  let result_offset_u32 ← liftRead (fun inst => validate_address_param inst result_offset)
  let value ← liftRead (fun inst => read_bytes32 inst value_offset_u32)
  let creation_code ← liftRead (fun inst => read_bytes_vec inst pc.1 pc.2)
  let constructor_data ← liftRead (fun inst => read_bytes_vec inst pd.1 pd.2)
  let salt ← create_salt_read salt_offset_u32
  let creator_address ← hostVal (fun h => h.get_address)
  let gas ← getGasLeftB
  let result ← hostVal (fun h =>
    h.create_contract creator_address value creation_code constructor_data gas salt
      (is_create2 != 0))
  let address_to_write := result.contract_address.getD (List.replicate 20 0)
  writeB result_offset_u32 address_to_write
  pure (if result.success then 1 else 0)

/-- One iteration of the topic loop of `log.rs::emit_log_event`: a non-zero
offset is validated and dereferenced, a zero offset yields the zero topic. -/
def readTopic (t : Int) : Bridge Bytes :=
  if t ≠ 0 then do
    let off ← liftRead (fun inst => validate_bytes32_param inst t)
    liftRead (fun inst => read_bytes32 inst off)
  else
    pure (List.replicate 32 0)

/-- Topic collection loop of `log.rs::emit_log_event`. -/
def readTopics : List Int → Bridge (List Bytes)
  | [] => pure []
  | t :: rest => do
      let topic ← readTopic t
      let more ← readTopics rest
      pure (topic :: more)

/-- `log.rs::emit_log_event` (the built event goes to host-internal state). -/
def emit_log_event (data_offset length num_topics topic1_offset topic2_offset
    topic3_offset topic4_offset : Int) : Bridge Unit := do
  if num_topics < 0 ∨ 4 < num_topics then
    errB (invalid_parameter_error "num_topics" (toString num_topics) "emit_log_event")
  else do
    let p ← liftRead (fun inst => validate_data_param inst data_offset length)
    let _log_data ← liftRead (fun inst => read_bytes_vec inst p.1 p.2)
    let _topics ← readTopics
      ([topic1_offset, topic2_offset, topic3_offset, topic4_offset].take num_topics.toNat)
    pure ()

-- The `math.rs` primitives are defined below, once the trait-level
-- arithmetic of `traits.rs` is in scope.
end Host

/-! ## Default modular arithmetic of the host trait (`src/evm/traits.rs`) -/

namespace Traits

/-- `BigUint::from_bytes_be`: big-endian byte decoding. -/
def from_bytes_be (l : Bytes) : Nat := l.foldl (fun acc b => acc * 256 + b) 0

/-- Minimal big-endian digit expansion, bounded by a fuel argument so the
recursion is structural (the fuel `n` always suffices for the value `n`). -/
def natDigitsBEAux : Nat → Nat → Bytes
  | 0, _ => []
  | fuel + 1, n => if n = 0 then [] else natDigitsBEAux fuel (n / 256) ++ [n % 256]

/-- Minimal big-endian digit expansion (empty for zero). -/
def natDigitsBE (n : Nat) : Bytes := natDigitsBEAux n n

/-- `BigUint::to_bytes_be`: minimal big-endian bytes, `[0]` for zero. -/
def to_bytes_be (n : Nat) : Bytes :=
  if n = 0 then [0] else natDigitsBE n

/-- `bigint_to_bytes32` of `traits.rs`: 32-byte big-endian encoding, padded on
the left with zeros, truncated to the least significant 32 bytes if longer. -/
def bigint_to_bytes32 (value : Nat) : Bytes :=
  let bytes := to_bytes_be value
  if 32 < bytes.length then
    bytes.drop (bytes.length - 32)
  else
    List.replicate (32 - bytes.length) 0 ++ bytes

/-- `EvmHost::addmod` default implementation. -/
def addmod (a_bytes b_bytes n_bytes : Bytes) : Bytes :=
  let a := from_bytes_be a_bytes
  let b := from_bytes_be b_bytes
  let n := from_bytes_be n_bytes
  let result := if n = 0 then 0 else (a + b) % n
  bigint_to_bytes32 result

/-- `EvmHost::mulmod` default implementation. -/
def mulmod (a_bytes b_bytes n_bytes : Bytes) : Bytes :=
  let a := from_bytes_be a_bytes
  let b := from_bytes_be b_bytes
  let n := from_bytes_be n_bytes
  let result := if n = 0 then 0 else (a * b) % n
  bigint_to_bytes32 result

/-- `EvmHost::expmod` default implementation (`modpow` is `b ^ e % m`). -/
def expmod (base_bytes exp_bytes mod_bytes : Bytes) : Bytes :=
  let base := from_bytes_be base_bytes
  let exponent := from_bytes_be exp_bytes
  let modulus := from_bytes_be mod_bytes
  let result :=
    if modulus = 0 then 0
    else if modulus = 1 then 0
    else if exponent = 0 then 1
    else if base = 0 then 0
    else base ^ exponent % modulus
  bigint_to_bytes32 result

end Traits

namespace Host

/-- `math.rs::addmod` (the host consults the trait default implementation). -/
def addmod (a_offset b_offset n_offset result_offset : Int) : Bridge Unit := do
  let a_offset_u32 ← liftRead (fun inst => validate_bytes32_param inst a_offset)
  let b_offset_u32 ← liftRead (fun inst => validate_bytes32_param inst b_offset)
  let n_offset_u32 ← liftRead (fun inst => validate_bytes32_param inst n_offset)
  let result_offset_u32 ← liftRead (fun inst => validate_bytes32_param inst result_offset)
  let a_bytes ← liftRead (fun inst => read_bytes32 inst a_offset_u32)
  let b_bytes ← liftRead (fun inst => read_bytes32 inst b_offset_u32)
  let n_bytes ← liftRead (fun inst => read_bytes32 inst n_offset_u32)
  writeB result_offset_u32 (Traits.addmod a_bytes b_bytes n_bytes)

/-- `math.rs::mulmod`. -/
def mulmod (a_offset b_offset n_offset result_offset : Int) : Bridge Unit := do
  let a_offset_u32 ← liftRead (fun inst => validate_bytes32_param inst a_offset)
  let b_offset_u32 ← liftRead (fun inst => validate_bytes32_param inst b_offset)
  let n_offset_u32 ← liftRead (fun inst => validate_bytes32_param inst n_offset)
  let result_offset_u32 ← liftRead (fun inst => validate_bytes32_param inst result_offset)
  let a_bytes ← liftRead (fun inst => read_bytes32 inst a_offset_u32)
  let b_bytes ← liftRead (fun inst => read_bytes32 inst b_offset_u32)
  let n_bytes ← liftRead (fun inst => read_bytes32 inst n_offset_u32)
  writeB result_offset_u32 (Traits.mulmod a_bytes b_bytes n_bytes)

/-- `math.rs::expmod`. -/
def expmod (base_offset exp_offset mod_offset result_offset : Int) : Bridge Unit := do
  let base_offset_u32 ← liftRead (fun inst => validate_bytes32_param inst base_offset)
  let exp_offset_u32 ← liftRead (fun inst => validate_bytes32_param inst exp_offset)
  let mod_offset_u32 ← liftRead (fun inst => validate_bytes32_param inst mod_offset)
  let result_offset_u32 ← liftRead (fun inst => validate_bytes32_param inst result_offset)
  let base_bytes ← liftRead (fun inst => read_bytes32 inst base_offset_u32)
  let exp_bytes ← liftRead (fun inst => read_bytes32 inst exp_offset_u32)
  let mod_bytes ← liftRead (fun inst => read_bytes32 inst mod_offset_u32)
  writeB result_offset_u32 (Traits.expmod base_bytes exp_bytes mod_bytes)

end Host

/-! ## Gas metering transformer surface (`src/gas_metering/transform.rs`) -/

/-- `TransformError` of `transform.rs`. -/
inductive TransformError where
  | Parse (msg : String)
  | Inject (msg : String)
  | Serialize (msg : String)
  deriving DecidableEq, Repr

/-- Modelled from the spec: `ConstantCostRules` lives in `gas_inject.rs`, which
is not among the verified sources; per the spec it is determined by a
per-instruction cost, a memory-grow cost per page and a per-local call cost. -/
structure ConstantCostRules where
  instruction_cost : Nat
  memory_grow_cost : Nat
  call_per_local_cost : Nat
  deriving DecidableEq, Repr

/-- `ConstantCostRules::new`. -/
def ConstantCostRules.new (instruction_cost memory_grow_cost call_per_local_cost : Nat) :
    ConstantCostRules :=
  ⟨instruction_cost, memory_grow_cost, call_per_local_cost⟩

/-- Modelled from the spec: the parse / inject / serialize pipeline used by the
transformer.  `Module::from_bytes`, `inject` and `serialize` live in
`parity_wasm` and `gas_inject.rs`, outside the verified sources, so they are
abstract deterministic functions here (`Module` is an abstract type, `Rules`
the rules object threaded through injection). -/
structure GasPipeline (Module : Type) (Rules : Type) where
  from_bytes : Bytes → Except String Module
  inject : Module → Rules → Except String Module
  serialize : Module → Except String Bytes

/-- `GasMeter::transform_with_rules`: parse, inject, serialize, wrapping each
failure in its distinct `TransformError` kind. -/
def transform_with_rules {Module Rules : Type} (env : GasPipeline Module Rules)
    (input_wasm : Bytes) (gas_rules : Rules) : Except TransformError Bytes :=
  match env.from_bytes input_wasm with
  | .error e => .error (.Parse e)
  | .ok module_ =>
    match env.inject module_ gas_rules with
    | .error e => .error (.Inject e)
    | .ok injected_module =>
      match env.serialize injected_module with
      | .error e => .error (.Serialize e)
      | .ok out => .ok out

/-- `GasMeter::transform_default`: delegates to `transform_with_rules` with
`ConstantCostRules::new(1, 8192, 1)`. -/
def transform_default {Module : Type} (env : GasPipeline Module ConstantCostRules)
    (input_wasm : Bytes) : Except TransformError Bytes :=
  transform_with_rules env input_wasm (ConstantCostRules.new 1 8192 1)

/-! ## Bridge proof machinery -/

/-- Whether a bridge result is an error. -/
def isError {ε α : Type} : Except ε α → Bool
  | .error _ => true
  | .ok _ => false

@[simp] theorem isError_ok {ε α : Type} (a : α) : isError (Except.ok a : Except ε α) = false := rfl

@[simp] theorem isError_error {ε α : Type} (e : ε) :
    isError (Except.error e : Except ε α) = true := rfl

/-- The computation leaves the instance untouched. -/
def StatePres {α : Type} (m : Bridge α) : Prop := ∀ inst, (m inst).2 = inst

/-- The computation leaves the instance untouched whenever it fails. -/
def ErrPres {α : Type} (m : Bridge α) : Prop :=
  ∀ inst, isError (m inst).1 = true → (m inst).2 = inst

/-- The computation never fails. -/
def NeverErr {α : Type} (m : Bridge α) : Prop := ∀ inst, isError (m inst).1 = false

theorem bind_def {α β : Type} (m : Bridge α) (f : α → Bridge β) :
    m >>= f = Bridge.bindB m f := rfl

theorem statePres_pure {α : Type} (a : α) : StatePres (pure a : Bridge α) := fun _ => rfl

theorem statePres_liftRead {α : Type} (r : Inst → Except HostFunctionError α) :
    StatePres (liftRead r) := fun _ => rfl

theorem statePres_hostVal {α : Type} (f : EvmHost → α) : StatePres (hostVal f) := fun _ => rfl

theorem statePres_getGasLeft : StatePres getGasLeftB := fun _ => rfl

theorem statePres_errB {α : Type} (e : HostFunctionError) : StatePres (errB (α := α) e) :=
  fun _ => rfl

theorem statePres_bind {α β : Type} {m : Bridge α} {f : α → Bridge β}
    (hm : StatePres m) (hf : ∀ a, StatePres (f a)) : StatePres (m >>= f) := by
  intro inst
  rw [bind_def]
  unfold Bridge.bindB
  split
  · rename_i a inst1 heq
    have h2 := hm inst
    rw [heq] at h2
    rw [hf a inst1]
    exact h2
  · rename_i e inst1 heq
    have h2 := hm inst
    rw [heq] at h2
    exact h2

theorem statePres_ite {α : Type} {c : Prop} [Decidable c] {m n : Bridge α}
    (hm : StatePres m) (hn : StatePres n) : StatePres (if c then m else n) := by
  by_cases h : c
  · rw [if_pos h]; exact hm
  · rw [if_neg h]; exact hn

theorem errPres_of_statePres {α : Type} {m : Bridge α} (h : StatePres m) : ErrPres m :=
  fun inst _ => h inst

theorem neverErr_pure {α : Type} (a : α) : NeverErr (pure a : Bridge α) := fun _ => rfl

theorem neverErr_exitB (c : Int) : NeverErr (exitB c) := fun _ => rfl

theorem errPres_of_neverErr {α : Type} {m : Bridge α} (h : NeverErr m) : ErrPres m := by
  intro inst herr
  rw [h inst] at herr
  exact absurd herr (by simp)

theorem errPres_bind {α β : Type} {m : Bridge α} {f : α → Bridge β}
    (hm : StatePres m) (hf : ∀ a, ErrPres (f a)) : ErrPres (m >>= f) := by
  intro inst herr
  rw [bind_def] at herr ⊢
  unfold Bridge.bindB at herr ⊢
  have h2 := hm inst
  split at herr
  · rename_i a inst1 heq
    rw [heq] at h2
    rw [hf a inst1 herr]
    exact h2
  · rename_i e inst1 heq
    rw [heq] at h2
    exact h2

theorem errPres_bind_fin {α β : Type} {m : Bridge α} {f : α → Bridge β}
    (hm : ErrPres m) (hf : ∀ a, NeverErr (f a)) : ErrPres (m >>= f) := by
  intro inst herr
  rw [bind_def] at herr ⊢
  unfold Bridge.bindB at herr ⊢
  split at herr
  · rename_i a inst1 heq
    rw [hf a inst1] at herr
    exact absurd herr (by simp)
  · rename_i e inst1 heq
    have h2 := hm inst (by rw [heq]; rfl)
    rw [heq] at h2
    exact h2

theorem errPres_ite {α : Type} {c : Prop} [Decidable c] {m n : Bridge α}
    (hm : ErrPres m) (hn : ErrPres n) : ErrPres (if c then m else n) := by
  by_cases h : c
  · rw [if_pos h]; exact hm
  · rw [if_neg h]; exact hn

theorem errPres_writeB (offset : Nat) (data : Bytes) : ErrPres (writeB offset data) := by
  intro inst herr
  unfold writeB write_bytes at herr ⊢
  by_cases h : (!validate_range inst offset data.length) = true
  · simp only [if_pos h]
  · rw [if_neg h] at herr
    simp at herr

theorem errPres_errB {α : Type} (e : HostFunctionError) : ErrPres (errB (α := α) e) :=
  errPres_of_statePres (statePres_errB e)

theorem errPres_exitB (c : Int) : ErrPres (exitB c) :=
  errPres_of_neverErr (neverErr_exitB c)

/-! ## Per-primitive preservation lemmas -/

theorem errPres_get_address (ro : Int) : ErrPres (Host.get_address ro) := by
  unfold Host.get_address
  apply errPres_bind (statePres_liftRead _)
  intro off
  apply errPres_bind (statePres_hostVal _)
  intro addr
  exact errPres_writeB _ _

theorem errPres_get_caller (ro : Int) : ErrPres (Host.get_caller ro) := by
  unfold Host.get_caller
  apply errPres_bind (statePres_liftRead _)
  intro off
  apply errPres_bind (statePres_hostVal _)
  intro addr
  exact errPres_writeB _ _

theorem errPres_get_tx_origin (ro : Int) : ErrPres (Host.get_tx_origin ro) := by
  unfold Host.get_tx_origin
  apply errPres_bind (statePres_liftRead _)
  intro off
  apply errPres_bind (statePres_hostVal _)
  intro addr
  exact errPres_writeB _ _

theorem errPres_get_call_value (ro : Int) : ErrPres (Host.get_call_value ro) := by
  unfold Host.get_call_value
  apply errPres_bind (statePres_liftRead _)
  intro off
  apply errPres_bind (statePres_hostVal _)
  intro v
  exact errPres_writeB _ _

theorem errPres_get_chain_id (ro : Int) : ErrPres (Host.get_chain_id ro) := by
  unfold Host.get_chain_id
  apply errPres_bind (statePres_liftRead _)
  intro off
  apply errPres_bind (statePres_hostVal _)
  intro v
  exact errPres_writeB _ _

theorem errPres_get_external_balance (ao ro : Int) : ErrPres (Host.get_external_balance ao ro) := by
  unfold Host.get_external_balance
  apply errPres_bind (statePres_liftRead _)
  intro a
  apply errPres_bind (statePres_liftRead _)
  intro r
  apply errPres_bind (statePres_liftRead _)
  intro addr
  apply errPres_bind (statePres_hostVal _)
  intro bal
  exact errPres_writeB _ _

theorem errPres_get_block_coinbase (ro : Int) : ErrPres (Host.get_block_coinbase ro) := by
  unfold Host.get_block_coinbase
  apply errPres_bind (statePres_liftRead _)
  intro off
  apply errPres_bind (statePres_hostVal _)
  intro v
  exact errPres_writeB _ _

theorem errPres_get_block_prev_randao (ro : Int) : ErrPres (Host.get_block_prev_randao ro) := by
  unfold Host.get_block_prev_randao
  apply errPres_bind (statePres_liftRead _)
  intro off
  apply errPres_bind (statePres_hostVal _)
  intro v
  exact errPres_writeB _ _

theorem errPres_get_block_hash (bn ro : Int) : ErrPres (Host.get_block_hash bn ro) := by
  unfold Host.get_block_hash
  apply errPres_bind (statePres_liftRead _)
  intro off
  apply errPres_bind (statePres_hostVal _)
  intro current
  apply errPres_ite
  · exact errPres_bind_fin (errPres_writeB _ _) (fun _ => neverErr_pure _)
  · apply errPres_bind (statePres_hostVal _)
    intro r
    cases r with
    | some hash => exact errPres_bind_fin (errPres_writeB _ _) (fun _ => neverErr_pure _)
    | none => exact errPres_bind_fin (errPres_writeB _ _) (fun _ => neverErr_pure _)

theorem errPres_get_base_fee (ro : Int) : ErrPres (Host.get_base_fee ro) := by
  unfold Host.get_base_fee
  apply errPres_bind (statePres_liftRead _)
  intro off
  apply errPres_bind (statePres_hostVal _)
  intro v
  exact errPres_writeB _ _

theorem errPres_get_blob_base_fee (ro : Int) : ErrPres (Host.get_blob_base_fee ro) := by
  unfold Host.get_blob_base_fee
  apply errPres_bind (statePres_liftRead _)
  intro off
  apply errPres_bind (statePres_hostVal _)
  intro v
  exact errPres_writeB _ _

theorem errPres_get_tx_gas_price (ro : Int) : ErrPres (Host.get_tx_gas_price ro) := by
  unfold Host.get_tx_gas_price
  apply errPres_bind (statePres_liftRead _)
  intro off
  apply errPres_bind (statePres_hostVal _)
  intro v
  exact errPres_writeB _ _

theorem errPres_call_data_copy (ro dof l : Int) : ErrPres (Host.call_data_copy ro dof l) := by
  unfold Host.call_data_copy
  apply errPres_bind (statePres_liftRead _)
  intro p
  apply errPres_ite (errPres_errB _)
  apply errPres_bind (statePres_hostVal _)
  intro cd
  exact errPres_writeB _ _

theorem errPres_code_copy (ro co l : Int) : ErrPres (Host.code_copy ro co l) := by
  unfold Host.code_copy
  apply errPres_bind (statePres_liftRead _)
  intro p
  apply errPres_ite (errPres_errB _)
  apply errPres_bind (statePres_hostVal _)
  intro code
  exact errPres_writeB _ _

theorem statePres_get_external_code_size (ao : Int) : StatePres (Host.get_external_code_size ao) := by
  unfold Host.get_external_code_size
  apply statePres_bind (statePres_liftRead _)
  intro a
  apply statePres_bind (statePres_liftRead _)
  intro addr
  apply statePres_bind (statePres_hostVal _)
  intro r
  cases r with
  | some size => exact statePres_pure _
  | none => exact statePres_pure _

theorem errPres_get_external_code_hash (ao ro : Int) :
    ErrPres (Host.get_external_code_hash ao ro) := by
  unfold Host.get_external_code_hash
  apply errPres_bind (statePres_liftRead _)
  intro a
  apply errPres_bind (statePres_liftRead _)
  intro r
  apply errPres_bind (statePres_liftRead _)
  intro addr
  apply errPres_bind (statePres_hostVal _)
  intro h
  cases h with
  | some hash => exact errPres_writeB _ _
  | none => exact errPres_writeB _ _

theorem errPres_external_code_copy (ao ro co l : Int) :
    ErrPres (Host.external_code_copy ao ro co l) := by
  unfold Host.external_code_copy
  apply errPres_bind (statePres_liftRead _)
  intro a
  apply errPres_bind (statePres_liftRead _)
  intro p
  apply errPres_ite (errPres_errB _)
  apply errPres_bind (statePres_liftRead _)
  intro addr
  apply errPres_bind (statePres_hostVal _)
  intro r
  cases r with
  | some ec => exact errPres_writeB _ _
  | none => exact errPres_writeB _ _

theorem errPres_return_data_copy (ro dof l : Int) : ErrPres (Host.return_data_copy ro dof l) := by
  unfold Host.return_data_copy
  apply errPres_bind (statePres_liftRead _)
  intro p
  apply errPres_ite (errPres_errB _)
  apply errPres_bind (statePres_hostVal _)
  intro rd
  exact errPres_writeB _ _

theorem errPres_finish (dof l : Int) : ErrPres (Host.finish dof l) := by
  unfold Host.finish
  apply errPres_bind (statePres_liftRead _)
  intro p
  apply errPres_bind (statePres_liftRead _)
  intro d
  exact errPres_exitB _

theorem errPres_revert (dof l : Int) : ErrPres (Host.revert dof l) := by
  unfold Host.revert
  apply errPres_bind (statePres_liftRead _)
  intro p
  apply errPres_bind (statePres_liftRead _)
  intro d
  exact errPres_exitB _

theorem errPres_invalid : ErrPres Host.invalid := errPres_exitB 2

theorem errPres_self_destruct (ao : Int) : ErrPres (Host.self_destruct ao) := by
  unfold Host.self_destruct
  apply errPres_bind (statePres_liftRead _)
  intro a
  apply errPres_bind (statePres_liftRead _)
  intro addr
  apply errPres_bind (statePres_hostVal _)
  intro bal
  exact errPres_exitB _

theorem statePres_storage_store (ko vo : Int) : StatePres (Host.storage_store ko vo) := by
  unfold Host.storage_store
  apply statePres_bind (statePres_liftRead _)
  intro k
  apply statePres_bind (statePres_liftRead _)
  intro v
  exact statePres_pure _

theorem errPres_storage_load (ko ro : Int) : ErrPres (Host.storage_load ko ro) := by
  unfold Host.storage_load
  apply errPres_bind (statePres_liftRead _)
  intro k
  apply errPres_bind (statePres_hostVal _)
  intro v
  exact errPres_writeB _ _

theorem errPres_sha256 (io il ro : Int) : ErrPres (Host.sha256 io il ro) := by
  unfold Host.sha256
  apply errPres_bind (statePres_liftRead _)
  intro p
  apply errPres_bind (statePres_liftRead _)
  intro r
  apply errPres_bind (statePres_liftRead _)
  intro d
  apply errPres_bind (statePres_hostVal _)
  intro hsh
  exact errPres_writeB _ _

theorem errPres_keccak256 (io il ro : Int) : ErrPres (Host.keccak256 io il ro) := by
  unfold Host.keccak256
  apply errPres_bind (statePres_liftRead _)
  intro p
  apply errPres_bind (statePres_liftRead _)
  intro r
  apply errPres_bind (statePres_liftRead _)
  intro d
  apply errPres_bind (statePres_hostVal _)
  intro hsh
  exact errPres_writeB _ _

theorem statePres_call_contract (gas ao vo dof dl : Int) :
    StatePres (Host.call_contract gas ao vo dof dl) := by
  unfold Host.call_contract
  apply statePres_bind (statePres_liftRead _); intro a
  apply statePres_bind (statePres_liftRead _); intro v
  apply statePres_bind (statePres_liftRead _); intro p
  apply statePres_bind (statePres_liftRead _); intro t
  apply statePres_bind (statePres_liftRead _); intro cv
  apply statePres_bind (statePres_liftRead _); intro cd
  apply statePres_bind (statePres_hostVal _); intro c
  apply statePres_bind (statePres_hostVal _); intro r
  exact statePres_pure _

theorem statePres_call_code (gas ao vo dof dl : Int) :
    StatePres (Host.call_code gas ao vo dof dl) := by
  unfold Host.call_code
  apply statePres_bind (statePres_liftRead _); intro a
  apply statePres_bind (statePres_liftRead _); intro v
  apply statePres_bind (statePres_liftRead _); intro p
  apply statePres_bind (statePres_liftRead _); intro t
  apply statePres_bind (statePres_liftRead _); intro cv
  apply statePres_bind (statePres_liftRead _); intro cd
  apply statePres_bind (statePres_hostVal _); intro c
  apply statePres_bind (statePres_hostVal _); intro r
  exact statePres_pure _

theorem statePres_call_delegate (gas ao dof dl : Int) :
    StatePres (Host.call_delegate gas ao dof dl) := by
  unfold Host.call_delegate
  apply statePres_bind (statePres_liftRead _); intro a
  apply statePres_bind (statePres_liftRead _); intro p
  apply statePres_bind (statePres_liftRead _); intro t
  apply statePres_bind (statePres_liftRead _); intro cd
  apply statePres_bind (statePres_hostVal _); intro c
  apply statePres_bind (statePres_hostVal _); intro r
  exact statePres_pure _

theorem statePres_call_static (gas ao dof dl : Int) :
    StatePres (Host.call_static gas ao dof dl) := by
  unfold Host.call_static
  apply statePres_bind (statePres_liftRead _); intro a
  apply statePres_bind (statePres_liftRead _); intro p
  apply statePres_bind (statePres_liftRead _); intro t
  apply statePres_bind (statePres_liftRead _); intro cd
  apply statePres_bind (statePres_hostVal _); intro c
  apply statePres_bind (statePres_hostVal _); intro r
  exact statePres_pure _

theorem statePres_create_salt_validate {so ic : Int} :
    StatePres (Host.create_salt_validate so ic) := by
  unfold Host.create_salt_validate
  apply statePres_ite
  · exact statePres_bind (statePres_liftRead _) (fun _ => statePres_pure _)
  · exact statePres_pure _

theorem statePres_create_salt_read {s? : Option Nat} :
    StatePres (Host.create_salt_read s?) := by
  unfold Host.create_salt_read
  cases s? with
  | some s => exact statePres_bind (statePres_liftRead _) (fun _ => statePres_pure _)
  | none => exact statePres_pure _

theorem errPres_create_contract (vo co cl dof dl so ic ro : Int) :
    ErrPres (Host.create_contract vo co cl dof dl so ic ro) := by
  unfold Host.create_contract
  apply errPres_bind (statePres_liftRead _); intro v
  apply errPres_bind (statePres_liftRead _); intro pc
  apply errPres_bind (statePres_liftRead _); intro pd
  apply errPres_bind statePres_create_salt_validate
  intro soff
  apply errPres_bind (statePres_liftRead _); intro roff
  apply errPres_bind (statePres_liftRead _); intro val
  apply errPres_bind (statePres_liftRead _); intro cc
  apply errPres_bind (statePres_liftRead _); intro cdta
  apply errPres_bind statePres_create_salt_read
  intro salt
  apply errPres_bind (statePres_hostVal _); intro creator
  apply errPres_bind statePres_getGasLeft; intro gas
  apply errPres_bind (statePres_hostVal _); intro result
  exact errPres_bind_fin (errPres_writeB _ _) (fun _ => neverErr_pure _)

theorem statePres_readTopic (t : Int) : StatePres (Host.readTopic t) := by
  unfold Host.readTopic
  apply statePres_ite
  · exact statePres_bind (statePres_liftRead _) (fun _ => statePres_liftRead _)
  · exact statePres_pure _

theorem statePres_readTopics (l : List Int) : StatePres (Host.readTopics l) := by
  induction l with
  | nil => exact statePres_pure _
  | cons t rest ih =>
    unfold Host.readTopics
    apply statePres_bind (statePres_readTopic t)
    intro topic
    exact statePres_bind ih (fun more => statePres_pure _)

theorem statePres_emit_log_event (dof l nt t1 t2 t3 t4 : Int) :
    StatePres (Host.emit_log_event dof l nt t1 t2 t3 t4) := by
  unfold Host.emit_log_event
  apply statePres_ite (statePres_errB _)
  apply statePres_bind (statePres_liftRead _); intro p
  apply statePres_bind (statePres_liftRead _); intro d
  apply statePres_bind (statePres_readTopics _); intro topics
  exact statePres_pure _

theorem errPres_addmod (ao bo no ro : Int) : ErrPres (Host.addmod ao bo no ro) := by
  unfold Host.addmod
  apply errPres_bind (statePres_liftRead _); intro a
  apply errPres_bind (statePres_liftRead _); intro b
  apply errPres_bind (statePres_liftRead _); intro n
  apply errPres_bind (statePres_liftRead _); intro r
  apply errPres_bind (statePres_liftRead _); intro ab
  apply errPres_bind (statePres_liftRead _); intro bb
  apply errPres_bind (statePres_liftRead _); intro nb
  exact errPres_writeB _ _

theorem errPres_mulmod (ao bo no ro : Int) : ErrPres (Host.mulmod ao bo no ro) := by
  unfold Host.mulmod
  apply errPres_bind (statePres_liftRead _); intro a
  apply errPres_bind (statePres_liftRead _); intro b
  apply errPres_bind (statePres_liftRead _); intro n
  apply errPres_bind (statePres_liftRead _); intro r
  apply errPres_bind (statePres_liftRead _); intro ab
  apply errPres_bind (statePres_liftRead _); intro bb
  apply errPres_bind (statePres_liftRead _); intro nb
  exact errPres_writeB _ _

theorem errPres_expmod (bo eo mo ro : Int) : ErrPres (Host.expmod bo eo mo ro) := by
  unfold Host.expmod
  apply errPres_bind (statePres_liftRead _); intro b
  apply errPres_bind (statePres_liftRead _); intro e
  apply errPres_bind (statePres_liftRead _); intro m
  apply errPres_bind (statePres_liftRead _); intro r
  apply errPres_bind (statePres_liftRead _); intro bb
  apply errPres_bind (statePres_liftRead _); intro eb
  apply errPres_bind (statePres_liftRead _); intro mb
  exact errPres_writeB _ _

/-! ## Arithmetic lemmas for the trait-level modular operations -/

theorem foldl_byte_bound : ∀ (l : Bytes) (acc : Nat), (∀ b ∈ l, b < 256) →
    List.foldl (fun a b => a * 256 + b) acc l < (acc + 1) * 256 ^ l.length := by
  intro l
  induction l with
  | nil =>
    intro acc _
    simp

  | cons b t ih =>
    intro acc hb
    simp only [List.foldl_cons, List.length_cons]
    have hblt : b < 256 := hb b (by simp)
    calc List.foldl (fun a b => a * 256 + b) (acc * 256 + b) t
        < (acc * 256 + b + 1) * 256 ^ t.length :=
          ih (acc * 256 + b) (fun x hx => hb x (by simp [hx]))
      _ ≤ ((acc + 1) * 256) * 256 ^ t.length := by
          apply Nat.mul_le_mul_right
          omega
      _ = (acc + 1) * 256 ^ (t.length + 1) := by ring

theorem from_bytes_be_lt (l : Bytes) (h : ∀ b ∈ l, b < 256) :
    Traits.from_bytes_be l < 256 ^ l.length := by
  have := foldl_byte_bound l 0 h
  simpa [Traits.from_bytes_be] using this

theorem from_bytes_be_append_singleton (l : Bytes) (b : Nat) :
    Traits.from_bytes_be (l ++ [b]) = Traits.from_bytes_be l * 256 + b := by
  simp [Traits.from_bytes_be, List.foldl_append]

theorem from_bytes_be_natDigitsAux :
    ∀ (fuel n : Nat), n ≤ fuel → Traits.from_bytes_be (Traits.natDigitsBEAux fuel n) = n := by
  intro fuel
  induction fuel with
  | zero =>
    intro n hn
    have : n = 0 := by omega
    subst this
    rfl
  | succ f ih =>
    intro n hn
    by_cases h0 : n = 0
    · subst h0
      simp [Traits.natDigitsBEAux, Traits.from_bytes_be]
    · rw [Traits.natDigitsBEAux, if_neg h0]
      rw [from_bytes_be_append_singleton]
      have hdiv : n / 256 ≤ f := by
        have := Nat.div_lt_self (Nat.pos_of_ne_zero h0) (by decide : (1 : Nat) < 256)
        omega
      rw [ih (n / 256) hdiv]
      rw [Nat.mul_comm]
      exact Nat.div_add_mod n 256

theorem from_bytes_be_natDigits (n : Nat) :
    Traits.from_bytes_be (Traits.natDigitsBE n) = n :=
  from_bytes_be_natDigitsAux n n le_rfl

theorem from_bytes_be_replicate_zero_append (m : Nat) (l : Bytes) :
    Traits.from_bytes_be (List.replicate m 0 ++ l) = Traits.from_bytes_be l := by
  induction m with
  | zero => rfl
  | succ k ih =>
    have hstep : List.replicate (k + 1) 0 ++ l = 0 :: (List.replicate k 0 ++ l) := by
      simp [List.replicate_succ]
    rw [hstep]
    simpa [Traits.from_bytes_be] using ih

theorem natDigitsBEAux_length_le :
    ∀ (fuel n k : Nat), n < 256 ^ k → n ≤ fuel → (Traits.natDigitsBEAux fuel n).length ≤ k := by
  intro fuel
  induction fuel with
  | zero =>
    intro n k _ hn
    have : n = 0 := by omega
    subst this
    simp [Traits.natDigitsBEAux]
  | succ f ih =>
    intro n k hk hn
    by_cases h0 : n = 0
    · subst h0
      simp [Traits.natDigitsBEAux]
    · rw [Traits.natDigitsBEAux, if_neg h0]
      simp only [List.length_append, List.length_cons, List.length_nil]
      match k with
      | 0 =>
        exact absurd hk (by simp; omega)
      | j + 1 =>
        have hd : n / 256 < 256 ^ j := by
          rw [Nat.div_lt_iff_lt_mul (by decide : (0 : Nat) < 256)]
          calc n < 256 ^ (j + 1) := hk
            _ = 256 ^ j * 256 := by ring
        have hdf : n / 256 ≤ f := by
          have := Nat.div_lt_self (Nat.pos_of_ne_zero h0) (by decide : (1 : Nat) < 256)
          omega
        have := ih (n / 256) j hd hdf
        omega

theorem natDigitsBE_length_le (k n : Nat) (h : n < 256 ^ k) :
    (Traits.natDigitsBE n).length ≤ k :=
  natDigitsBEAux_length_le n n k h le_rfl

theorem bigint_to_bytes32_length (v : Nat) : (Traits.bigint_to_bytes32 v).length = 32 := by
  simp only [Traits.bigint_to_bytes32]
  split
  · rename_i h
    simp only [List.length_drop]
    omega
  · rename_i h
    simp only [List.length_append, List.length_replicate]
    omega

theorem from_bytes_be_bigint_to_bytes32 (v : Nat) (hv : v < 256 ^ 32) :
    Traits.from_bytes_be (Traits.bigint_to_bytes32 v) = v := by
  by_cases h0 : v = 0
  · subst h0
    decide
  · simp only [Traits.bigint_to_bytes32, Traits.to_bytes_be, if_neg h0]
    have hlen := natDigitsBE_length_le 32 v hv
    rw [if_neg (show ¬ 32 < (Traits.natDigitsBE v).length by omega)]
    rw [from_bytes_be_replicate_zero_append]
    exact from_bytes_be_natDigits v

/-! ## Evaluation lemmas for bridge computations -/

@[simp] theorem bind_apply {α β : Type} (m : Bridge α) (f : α → Bridge β) (inst : Inst) :
    (m >>= f) inst =
      (match m inst with
       | (.ok a, inst1) => f a inst1
       | (.error e, inst1) => (.error e, inst1)) := rfl

@[simp] theorem pure_apply {α : Type} (a : α) (inst : Inst) :
    (pure a : Bridge α) inst = (.ok a, inst) := rfl

@[simp] theorem liftRead_apply {α : Type} (r : Inst → Except HostFunctionError α) (inst : Inst) :
    liftRead r inst = (r inst, inst) := rfl

@[simp] theorem hostVal_apply {α : Type} (f : EvmHost → α) (inst : Inst) :
    hostVal f inst = (.ok (f inst.extra_ctx), inst) := rfl

@[simp] theorem getGasLeftB_apply (inst : Inst) :
    getGasLeftB inst = (.ok (Int.ofNat inst.gas_left), inst) := rfl

@[simp] theorem writeB_apply (offset : Nat) (data : Bytes) (inst : Inst) :
    writeB offset data inst = write_bytes inst offset data := rfl

@[simp] theorem errB_apply {α : Type} (e : HostFunctionError) (inst : Inst) :
    errB (α := α) e inst = (.error e, inst) := rfl

@[simp] theorem exitB_apply (c : Int) (inst : Inst) :
    exitB c inst = (.ok (), { inst with exitCode := some c }) := rfl

theorem validate_offset_ok {inst : Inst} {off : Int} {size : Nat} {nm : String} {u : Nat}
    (h : validate_offset_for_type inst off size nm = .ok u) :
    u = off.toNat ∧ 0 ≤ off ∧ inst.validate_wasm_addr off.toNat size = true := by
  unfold validate_offset_for_type at h
  split at h
  · cases h
  · simp only [] at h
    split at h
    · cases h
    · rename_i hneg hval
      refine ⟨by cases h; rfl, by omega, ?_⟩
      simpa [validate_range] using hval

theorem validate_address_param_ok {inst : Inst} {off : Int} {u : Nat}
    (h : validate_address_param inst off = .ok u) :
    u = off.toNat ∧ 0 ≤ off ∧ inst.validate_wasm_addr off.toNat 20 = true :=
  validate_offset_ok h

theorem validate_bytes32_param_ok {inst : Inst} {off : Int} {u : Nat}
    (h : validate_bytes32_param inst off = .ok u) :
    u = off.toNat ∧ 0 ≤ off ∧ inst.validate_wasm_addr off.toNat 32 = true :=
  validate_offset_ok h

theorem validate_data_param_ok {inst : Inst} {off len : Int} {p : Nat × Nat}
    (h : validate_data_param inst off len = .ok p) :
    p = (off.toNat, len.toNat) ∧ 0 ≤ off ∧ 0 ≤ len ∧
      inst.validate_wasm_addr off.toNat len.toNat = true := by
  unfold validate_data_param at h
  split at h
  · cases h
  · split at h
    · cases h
    · simp only [] at h
      split at h
      · cases h
      · rename_i hno hnl hval
        refine ⟨by cases h; rfl, by omega, by omega, ?_⟩
        simpa [validate_range] using hval

theorem read_bytes_ok {inst : Inst} {off len : Nat} {b : Bytes}
    (h : read_bytes inst off len = .ok b) :
    b = readRange inst.memData off len := by
  unfold read_bytes at h
  split at h
  · cases h
  · cases h; rfl

theorem read_address_ok {inst : Inst} {off : Nat} {b : Bytes}
    (h : read_address inst off = .ok b) : b = readRange inst.memData off 20 :=
  read_bytes_ok h

theorem read_bytes32_ok {inst : Inst} {off : Nat} {b : Bytes}
    (h : read_bytes32 inst off = .ok b) : b = readRange inst.memData off 32 :=
  read_bytes_ok h

theorem read_bytes_vec_ok {inst : Inst} {off len : Nat} {b : Bytes}
    (h : read_bytes_vec inst off len = .ok b) : b = readRange inst.memData off len :=
  read_bytes_ok h

/-- An error in the continuation of every branch makes the bind fail. -/
theorem isError_bind_of_cont {α β : Type} (m : Bridge α) (f : α → Bridge β) (inst : Inst)
    (hf : ∀ a inst1, isError ((f a) inst1).1 = true) :
    isError ((m >>= f) inst).1 = true := by
  rw [bind_def]
  unfold Bridge.bindB
  split
  · rename_i a inst1 heq
    exact hf a inst1
  · rename_i e inst1 heq
    rfl

/-- An error in the first component makes the bind fail. -/
theorem isError_bind_of_first {α β : Type} (m : Bridge α) (f : α → Bridge β) (inst : Inst)
    (hm : isError (m inst).1 = true) :
    isError ((m >>= f) inst).1 = true := by
  rw [bind_def]
  unfold Bridge.bindB
  split
  · rename_i a inst1 heq
    rw [heq] at hm
    exact absurd hm (by simp)
  · rename_i e inst1 heq
    rfl

/-! ## Success-code characterisation of the inter-contract call primitives -/

theorem call_contract_ok_code (inst : Inst) (gas ao vo dof dl rv : Int)
    (h : ((Host.call_contract gas ao vo dof dl) inst).1 = .ok rv) :
    rv = (if (inst.extra_ctx.call_contract (readRange inst.memData ao.toNat 20)
            inst.extra_ctx.get_caller (readRange inst.memData vo.toNat 32)
            (readRange inst.memData dof.toNat dl.toNat) gas).success then 1 else 0) := by
  simp only [Host.call_contract, bind_apply, liftRead_apply, hostVal_apply, pure_apply] at h
  split at h
  · rename_i x1 a1 i1 he1
    rw [Prod.mk.injEq] at he1
    obtain ⟨he1v, he1s⟩ := he1
    subst he1s
    split at h
    · rename_i x2 a2 i2 he2
      rw [Prod.mk.injEq] at he2
      obtain ⟨he2v, he2s⟩ := he2
      subst he2s
      split at h
      · rename_i x3 a3 i3 he3
        rw [Prod.mk.injEq] at he3
        obtain ⟨he3v, he3s⟩ := he3
        subst he3s
        split at h
        · rename_i x4 a4 i4 he4
          rw [Prod.mk.injEq] at he4
          obtain ⟨he4v, he4s⟩ := he4
          subst he4s
          split at h
          · rename_i x5 a5 i5 he5
            rw [Prod.mk.injEq] at he5
            obtain ⟨he5v, he5s⟩ := he5
            subst he5s
            split at h
            · rename_i x6 a6 i6 he6
              rw [Prod.mk.injEq] at he6
              obtain ⟨he6v, he6s⟩ := he6
              subst he6s
              obtain ⟨ha1, _, _⟩ := validate_address_param_ok he1v
              obtain ⟨ha2, _, _⟩ := validate_bytes32_param_ok he2v
              obtain ⟨ha3, _, _, _⟩ := validate_data_param_ok he3v
              have ht := read_address_ok he4v
              have hcv := read_bytes32_ok he5v
              have hcd := read_bytes_vec_ok he6v
              subst ha1 ha2 ha3 ht hcv hcd
              simp only [] at h
              exact (Except.ok.inj h).symm
            · simp at h
          · simp at h
        · simp at h
      · simp at h
    · simp at h
  · simp at h

theorem call_code_ok_code (inst : Inst) (gas ao vo dof dl rv : Int)
    (h : ((Host.call_code gas ao vo dof dl) inst).1 = .ok rv) :
    rv = (if (inst.extra_ctx.call_code (readRange inst.memData ao.toNat 20)
            inst.extra_ctx.get_caller (readRange inst.memData vo.toNat 32)
            (readRange inst.memData dof.toNat dl.toNat) gas).success then 1 else 0) := by
  simp only [Host.call_code, bind_apply, liftRead_apply, hostVal_apply, pure_apply] at h
  split at h
  · rename_i x1 a1 i1 he1
    rw [Prod.mk.injEq] at he1
    obtain ⟨he1v, he1s⟩ := he1
    subst he1s
    split at h
    · rename_i x2 a2 i2 he2
      rw [Prod.mk.injEq] at he2
      obtain ⟨he2v, he2s⟩ := he2
      subst he2s
      split at h
      · rename_i x3 a3 i3 he3
        rw [Prod.mk.injEq] at he3
        obtain ⟨he3v, he3s⟩ := he3
        subst he3s
        split at h
        · rename_i x4 a4 i4 he4
          rw [Prod.mk.injEq] at he4
          obtain ⟨he4v, he4s⟩ := he4
          subst he4s
          split at h
          · rename_i x5 a5 i5 he5
            rw [Prod.mk.injEq] at he5
            obtain ⟨he5v, he5s⟩ := he5
            subst he5s
            split at h
            · rename_i x6 a6 i6 he6
              rw [Prod.mk.injEq] at he6
              obtain ⟨he6v, he6s⟩ := he6
              subst he6s
              obtain ⟨ha1, _, _⟩ := validate_address_param_ok he1v
              obtain ⟨ha2, _, _⟩ := validate_bytes32_param_ok he2v
              obtain ⟨ha3, _, _, _⟩ := validate_data_param_ok he3v
              have ht := read_address_ok he4v
              have hcv := read_bytes32_ok he5v
              have hcd := read_bytes_vec_ok he6v
              subst ha1 ha2 ha3 ht hcv hcd
              simp only [] at h
              exact (Except.ok.inj h).symm
            · simp at h
          · simp at h
        · simp at h
      · simp at h
    · simp at h
  · simp at h

theorem call_delegate_ok_code (inst : Inst) (gas ao dof dl rv : Int)
    (h : ((Host.call_delegate gas ao dof dl) inst).1 = .ok rv) :
    rv = (if (inst.extra_ctx.call_delegate (readRange inst.memData ao.toNat 20)
            inst.extra_ctx.get_caller
            (readRange inst.memData dof.toNat dl.toNat) gas).success then 1 else 0) := by
  simp only [Host.call_delegate, bind_apply, liftRead_apply, hostVal_apply, pure_apply] at h
  split at h
  · rename_i x1 a1 i1 he1
    rw [Prod.mk.injEq] at he1
    obtain ⟨he1v, he1s⟩ := he1
    subst he1s
    split at h
    · rename_i x2 a2 i2 he2
      rw [Prod.mk.injEq] at he2
      obtain ⟨he2v, he2s⟩ := he2
      subst he2s
      split at h
      · rename_i x3 a3 i3 he3
        rw [Prod.mk.injEq] at he3
        obtain ⟨he3v, he3s⟩ := he3
        subst he3s
        split at h
        · rename_i x4 a4 i4 he4
          rw [Prod.mk.injEq] at he4
          obtain ⟨he4v, he4s⟩ := he4
          subst he4s
          obtain ⟨ha1, _, _⟩ := validate_address_param_ok he1v
          obtain ⟨ha2, _, _, _⟩ := validate_data_param_ok he2v
          have ht := read_address_ok he3v
          have hcd := read_bytes_vec_ok he4v
          subst ha1 ha2 ht hcd
          simp only [] at h
          exact (Except.ok.inj h).symm
        · simp at h
      · simp at h
    · simp at h
  · simp at h

theorem call_static_ok_code (inst : Inst) (gas ao dof dl rv : Int)
    (h : ((Host.call_static gas ao dof dl) inst).1 = .ok rv) :
    rv = (if (inst.extra_ctx.call_static (readRange inst.memData ao.toNat 20)
            inst.extra_ctx.get_caller
            (readRange inst.memData dof.toNat dl.toNat) gas).success then 1 else 0) := by
  simp only [Host.call_static, bind_apply, liftRead_apply, hostVal_apply, pure_apply] at h
  split at h
  · rename_i x1 a1 i1 he1
    rw [Prod.mk.injEq] at he1
    obtain ⟨he1v, he1s⟩ := he1
    subst he1s
    split at h
    · rename_i x2 a2 i2 he2
      rw [Prod.mk.injEq] at he2
      obtain ⟨he2v, he2s⟩ := he2
      subst he2s
      split at h
      · rename_i x3 a3 i3 he3
        rw [Prod.mk.injEq] at he3
        obtain ⟨he3v, he3s⟩ := he3
        subst he3s
        split at h
        · rename_i x4 a4 i4 he4
          rw [Prod.mk.injEq] at he4
          obtain ⟨he4v, he4s⟩ := he4
          subst he4s
          obtain ⟨ha1, _, _⟩ := validate_address_param_ok he1v
          obtain ⟨ha2, _, _, _⟩ := validate_data_param_ok he2v
          have ht := read_address_ok he3v
          have hcd := read_bytes_vec_ok he4v
          subst ha1 ha2 ht hcd
          simp only [] at h
          exact (Except.ok.inj h).symm
        · simp at h
      · simp at h
    · simp at h
  · simp at h

theorem write_bytes_ok {inst inst2 : Inst} {off : Nat} {data : Bytes} {u : Unit}
    (h : write_bytes inst off data = (.ok u, inst2)) :
    inst2 = { inst with memData := writeRange inst.memData off data } := by
  unfold write_bytes at h
  split at h
  · rw [Prod.mk.injEq] at h
    exact absurd h.1 (by simp)
  · rw [Prod.mk.injEq] at h
    exact h.2.symm

theorem create_salt_validate_ok {so ic : Int} {inst inst1 : Inst} {s? : Option Nat}
    (h : Host.create_salt_validate so ic inst = (.ok s?, inst1)) :
    inst1 = inst ∧ s? = (if ic ≠ 0 then some so.toNat else none) := by
  unfold Host.create_salt_validate at h
  by_cases hic : ic ≠ 0
  · rw [if_pos hic] at h
    rw [if_pos hic]
    simp only [bind_apply, liftRead_apply, pure_apply] at h
    split at h
    · rename_i x a i1 heq
      rw [Prod.mk.injEq] at heq
      obtain ⟨hv, hi⟩ := heq
      subst hi
      rw [Prod.mk.injEq] at h
      obtain ⟨hs, hi2⟩ := h
      obtain ⟨ha, _, _⟩ := validate_bytes32_param_ok hv
      subst ha
      exact ⟨hi2.symm, (Except.ok.inj hs).symm⟩
    · rw [Prod.mk.injEq] at h
      obtain ⟨hc, _⟩ := h
      cases hc
  · rw [if_neg hic] at h
    rw [if_neg hic]
    simp only [pure_apply] at h
    rw [Prod.mk.injEq] at h
    exact ⟨h.2.symm, (Except.ok.inj h.1).symm⟩

theorem create_salt_read_ok {s? : Option Nat} {inst inst1 : Inst} {sb : Option Bytes}
    (h : Host.create_salt_read s? inst = (.ok sb, inst1)) :
    inst1 = inst ∧ sb = s?.map (fun s => readRange inst.memData s 32) := by
  unfold Host.create_salt_read at h
  cases s? with
  | none =>
    simp only [pure_apply] at h
    rw [Prod.mk.injEq] at h
    exact ⟨h.2.symm, by simpa using (Except.ok.inj h.1).symm⟩
  | some s =>
    simp only [bind_apply, liftRead_apply, pure_apply] at h
    split at h
    · rename_i x a i1 heq
      rw [Prod.mk.injEq] at heq
      obtain ⟨hv, hi⟩ := heq
      subst hi
      rw [Prod.mk.injEq] at h
      obtain ⟨hs, hi2⟩ := h
      have hb := read_bytes32_ok hv
      subst hb
      exact ⟨hi2.symm, by simpa using (Except.ok.inj hs).symm⟩
    · rw [Prod.mk.injEq] at h
      obtain ⟨hc, _⟩ := h
      cases hc

theorem create_contract_ok_spec (inst inst2 : Inst) (vo co cl dof dl so ic ro rv : Int)
    (h : (Host.create_contract vo co cl dof dl so ic ro) inst = (.ok rv, inst2)) :
    rv = (if (inst.extra_ctx.create_contract inst.extra_ctx.get_address
            (readRange inst.memData vo.toNat 32) (readRange inst.memData co.toNat cl.toNat)
            (readRange inst.memData dof.toNat dl.toNat) (Int.ofNat inst.gas_left)
            (if ic ≠ 0 then some (readRange inst.memData so.toNat 32) else none)
            (ic != 0)).success then 1 else 0) ∧
    inst2.memData = writeRange inst.memData ro.toNat
      ((inst.extra_ctx.create_contract inst.extra_ctx.get_address
            (readRange inst.memData vo.toNat 32) (readRange inst.memData co.toNat cl.toNat)
            (readRange inst.memData dof.toNat dl.toNat) (Int.ofNat inst.gas_left)
            (if ic ≠ 0 then some (readRange inst.memData so.toNat 32) else none)
            (ic != 0)).contract_address.getD (List.replicate 20 0)) := by
  simp only [Host.create_contract, bind_apply, liftRead_apply, hostVal_apply,
    getGasLeftB_apply, pure_apply, writeB_apply] at h
  split at h
  · rename_i x1 a1 i1 he1
    rw [Prod.mk.injEq] at he1
    obtain ⟨he1v, he1s⟩ := he1
    subst he1s
    split at h
    · rename_i x2 a2 i2 he2
      rw [Prod.mk.injEq] at he2
      obtain ⟨he2v, he2s⟩ := he2
      subst he2s
      split at h
      · rename_i x3 a3 i3 he3
        rw [Prod.mk.injEq] at he3
        obtain ⟨he3v, he3s⟩ := he3
        subst he3s
        split at h
        · rename_i x4 a4 i4 he4
          obtain ⟨hi4, hs4⟩ := create_salt_validate_ok he4
          subst hs4
          have hi4s := hi4.symm
          subst hi4s
          split at h
          · rename_i x5 a5 i5 he5
            rw [Prod.mk.injEq] at he5
            obtain ⟨he5v, he5s⟩ := he5
            subst he5s
            split at h
            · rename_i x6 a6 i6 he6
              rw [Prod.mk.injEq] at he6
              obtain ⟨he6v, he6s⟩ := he6
              subst he6s
              split at h
              · rename_i x7 a7 i7 he7
                rw [Prod.mk.injEq] at he7
                obtain ⟨he7v, he7s⟩ := he7
                subst he7s
                split at h
                · rename_i x8 a8 i8 he8
                  rw [Prod.mk.injEq] at he8
                  obtain ⟨he8v, he8s⟩ := he8
                  subst he8s
                  split at h
                  · rename_i x9 a9 i9 he9
                    obtain ⟨hi9, hs9⟩ := create_salt_read_ok he9
                    subst hs9
                    have hi9s := hi9.symm
                    subst hi9s
                    split at h
                    · rename_i x10 a10 i10 he10
                      have hw := write_bytes_ok he10
                      subst hw
                      rw [Prod.mk.injEq] at h
                      obtain ⟨hrv, hinst⟩ := h
                      obtain ⟨ha1, _, _⟩ := validate_bytes32_param_ok he1v
                      obtain ⟨ha2, _, _, _⟩ := validate_data_param_ok he2v
                      obtain ⟨ha3, _, _, _⟩ := validate_data_param_ok he3v
                      obtain ⟨ha5, _, _⟩ := validate_address_param_ok he5v
                      have hval := read_bytes32_ok he6v
                      have hcc := read_bytes_vec_ok he7v
                      have hcd := read_bytes_vec_ok he8v
                      subst ha1 ha2 ha3 ha5 hval hcc hcd
                      have hmap : (if ic ≠ 0 then some so.toNat else none).map
                          (fun s => readRange inst.memData s 32) =
                          (if ic ≠ 0 then some (readRange inst.memData so.toNat 32) else none) := by
                        by_cases hic : ic ≠ 0
                        · rw [if_pos hic, if_pos hic]
                          rfl
                        · rw [if_neg hic, if_neg hic]
                          rfl
                      rw [hmap] at hrv hinst
                      constructor
                      · simpa using (Except.ok.inj hrv).symm
                      · rw [← hinst]
                    · rw [Prod.mk.injEq] at h
                      exact absurd h.1 (by simp)
                  · simp at h
                · simp at h
              · simp at h
            · simp at h
          · simp at h
        · simp at h
      · simp at h
    · simp at h
  · simp at h

/-! ## Exact characterisation of the storage primitives -/

theorem storage_store_spec (inst : Inst) (ko vo : Int) :
    ((Host.storage_store ko vo) inst).2 = inst ∧
    (isError ((Host.storage_store ko vo) inst).1 = true ↔
      ¬(inst.validate_wasm_addr (u32ofI32 ko) 32 = true ∧
        inst.validate_wasm_addr (u32ofI32 vo) 32 = true)) ∧
    (isError ((Host.storage_store ko vo) inst).1 = true →
      errCategoryOf ((Host.storage_store ko vo) inst).1 = some "memory") := by
  by_cases hk : inst.validate_wasm_addr (u32ofI32 ko) 32 = true
  · by_cases hv : inst.validate_wasm_addr (u32ofI32 vo) 32 = true
    · simp [Host.storage_store, read_bytes32, read_bytes, validate_range, hk, hv]
    · simp [Host.storage_store, read_bytes32, read_bytes, validate_range, hk, hv,
        errCategoryOf, out_of_bounds_error, HostFunctionError.category]
  · simp [Host.storage_store, read_bytes32, read_bytes, validate_range, hk,
      errCategoryOf, out_of_bounds_error, HostFunctionError.category]

theorem storage_load_spec (inst : Inst) (ko ro : Int)
    (h32 : ∀ kb, (inst.extra_ctx.storage_load kb).length = 32) :
    (isError ((Host.storage_load ko ro) inst).1 = true ↔
      ¬(inst.validate_wasm_addr (u32ofI32 ko) 32 = true ∧
        inst.validate_wasm_addr (u32ofI32 ro) 32 = true)) ∧
    (isError ((Host.storage_load ko ro) inst).1 = true →
      errCategoryOf ((Host.storage_load ko ro) inst).1 = some "memory" ∧
      ((Host.storage_load ko ro) inst).2.memData = inst.memData) ∧
    (isError ((Host.storage_load ko ro) inst).1 = false →
      ((Host.storage_load ko ro) inst).2.memData =
        writeRange inst.memData (u32ofI32 ro)
          (inst.extra_ctx.storage_load (readRange inst.memData (u32ofI32 ko) 32))) := by
  by_cases hk : inst.validate_wasm_addr (u32ofI32 ko) 32 = true
  · by_cases hr : inst.validate_wasm_addr (u32ofI32 ro) 32 = true
    · simp [Host.storage_load, read_bytes32, read_bytes, write_bytes, validate_range, hk, hr, h32]
    · simp [Host.storage_load, read_bytes32, read_bytes, write_bytes, validate_range, hk, hr,
        h32, errCategoryOf, out_of_bounds_error, HostFunctionError.category]
  · simp [Host.storage_load, read_bytes32, read_bytes, validate_range, hk,
      errCategoryOf, out_of_bounds_error, HostFunctionError.category]

/-! ## Concrete hosts and instances for witnesses and counterexamples -/

instance {e a : Type} [DecidableEq e] [DecidableEq a] : DecidableEq (Except e a)
  | .error x, .error y =>
    if h : x = y then .isTrue (by rw [h]) else .isFalse (fun c => h (Except.error.inj c))
  | .error _, .ok _ => .isFalse Except.noConfusion
  | .ok _, .error _ => .isFalse Except.noConfusion
  | .ok x, .ok y =>
    if h : x = y then .isTrue (by rw [h]) else .isFalse (fun c => h (Except.ok.inj c))

/-- The 32-byte big-endian word with low byte `k`. -/
def word32 (k : Nat) : Bytes := List.replicate 31 0 ++ [k]

/-- A benign concrete host: distinct address and caller, empty inputs,
all sub-calls succeed. -/
def hostW : EvmHost where
  get_address := List.replicate 20 1
  get_caller := List.replicate 20 2
  get_tx_origin := List.replicate 20 3
  get_call_value := List.replicate 32 0
  get_chain_id := List.replicate 32 0
  get_block_coinbase := List.replicate 20 0
  get_block_prev_randao := List.replicate 32 0
  get_base_fee := List.replicate 32 0
  get_blob_base_fee := List.replicate 32 0
  get_tx_gas_price := List.replicate 32 0
  get_block_number := 5
  get_block_hash := fun _ => none
  get_external_balance := fun _ => List.replicate 32 0
  get_external_code_size := fun _ => none
  get_external_code_hash := fun _ => none
  external_code_copy := fun _ => none
  call_data := []
  code := []
  return_data := []
  storage_load := fun _ => List.replicate 32 0
  sha256 := fun _ => List.replicate 32 0
  keccak256 := fun _ => List.replicate 32 0
  self_destruct := fun _ => List.replicate 32 0
  call_contract := fun _ _ _ _ _ => ⟨true, [], 0⟩
  call_code := fun _ _ _ _ _ => ⟨true, [], 0⟩
  call_delegate := fun _ _ _ _ => ⟨true, [], 0⟩
  call_static := fun _ _ _ _ => ⟨true, [], 0⟩
  create_contract := fun _ _ _ _ _ _ _ => ⟨true, some (List.replicate 20 9), [], 0⟩

/-- A 64-byte guest memory filled with the byte `0xAA = 170`; the engine
bounds predicate accepts exactly the ranges inside it. -/
def instW : Inst where
  validate_wasm_addr := fun offset length => decide (offset + length ≤ 64)
  memData := fun _ => 170
  extra_ctx := hostW
  gas_left := 1000
  exitCode := none

/-- A host whose sub-calls and creations all fail (`simple_failure` results). -/
def hostFail : EvmHost :=
  { hostW with
    call_contract := fun _ _ _ _ _ => ⟨false, [], 0⟩
    call_code := fun _ _ _ _ _ => ⟨false, [], 0⟩
    call_delegate := fun _ _ _ _ => ⟨false, [], 0⟩
    call_static := fun _ _ _ _ => ⟨false, [], 0⟩
    create_contract := fun _ _ _ _ _ _ _ => ⟨false, none, [], 0⟩ }

/-- `instW` with the failing host. -/
def instFail : Inst := { instW with extra_ctx := hostFail }

/-- A host whose sub-calls succeed exactly when the caller argument handed to
them is the parent frame's own address (`get_address`). -/
def hostC3 : EvmHost :=
  { hostW with
    call_contract := fun _ caller _ _ _ =>
      if caller = List.replicate 20 1 then ⟨true, [], 0⟩ else ⟨false, [], 0⟩
    call_static := fun _ caller _ _ =>
      if caller = List.replicate 20 1 then ⟨true, [], 0⟩ else ⟨false, [], 0⟩ }

/-- `instW` with the caller-sensitive host. -/
def instC3 : Inst := { instW with extra_ctx := hostC3 }

/-! ## Claim theorems -/

/-- C8 (confirmed): `transform_default(wasm)` produces exactly the same result
(identical output bytes on success, the same error kind on failure) as
`transform_with_rules(wasm, rules)` with the constant-cost rule set of
per-instruction cost 1, memory-grow cost 8192 per page and per-local call
cost 1, for every abstract parse/inject/serialize pipeline. -/
theorem claim_C8_transform_default_refines {Module : Type}
    (env : GasPipeline Module ConstantCostRules) (input_wasm : Bytes) :
    transform_default env input_wasm =
      transform_with_rules env input_wasm (ConstantCostRules.new 1 8192 1) := rfl

/-- C4 counterexample: an out-of-bounds error raised inside `read_bytes` (here:
reading 4 bytes at offset 100 of a 64-byte memory) reports the placeholder
`"unknown"` in its `function` field, not the primitive name `read_bytes`. -/
theorem claim_C4_counterexample :
    errFunctionOf (read_bytes instW 100 4) = some "unknown" ∧
      isError (read_bytes instW 100 4) = true ∧ "unknown" ≠ "read_bytes" := by
  refine ⟨rfl, rfl, by decide⟩

/-- C4 (amended): every bridge error value carries a `function` field and a
human-readable message; errors built through the `_with_function` helpers
record the caller-supplied primitive name in the `function` field, while those
built through the plain helpers — as `read_bytes`, `write_bytes` and the copy
primitives do — record the primitive/context name only inside the message and
set the `function` field to the placeholder `"unknown"`. -/
theorem claim_C4_amended_error_fields (offset length : Nat) (context fname p v : String) :
    (out_of_bounds_error offset length context).function = "unknown" ∧
    (out_of_bounds_error offset length context).message = "Out of bounds in " ++ context ∧
    (out_of_bounds_error offset length context).category = "memory" ∧
    (out_of_bounds_error_with_function offset length context fname).function = fname ∧
    (out_of_bounds_error_with_function offset length context fname).message
        = "Out of bounds in " ++ context ∧
    (invalid_parameter_error p v context).function = "unknown" ∧
    (invalid_parameter_error_with_function p v context fname).function = fname :=
  ⟨rfl, rfl, rfl, rfl, rfl, rfl, rfl⟩

/-- C2 (code bug): `code_copy` drops the zero-fill tail: with empty contract
code and `len = 4`, the call succeeds but writes nothing, leaving the four
destination bytes at their prior value `0xAA`, while the spec requires four
zero bytes; the structurally identical `call_data_copy` at the same input does
write the full zero-filled buffer. -/
theorem claim_C2_code_copy_zero_fill_lost :
    isError ((Host.code_copy 0 0 4) instW).1 = false ∧
    ((Host.code_copy 0 0 4) instW).2.memData 0 = 170 ∧
    ((Host.code_copy 0 0 4) instW).2.memData 3 = 170 ∧
    isError ((Host.call_data_copy 0 0 4) instW).1 = false ∧
    ((Host.call_data_copy 0 0 4) instW).2.memData 0 = 0 ∧
    ((Host.call_data_copy 0 0 4) instW).2.memData 3 = 0 ∧
    (170 : Nat) ≠ 0 := by decide

/-- C3 (code bug): the caller identity the bridge hands to the child frame of
CALL and STATICCALL is the host's `get_caller()` (the parent frame's caller),
not the parent frame's own address: against a host whose sub-calls succeed
exactly when handed `get_address`, the bridge reports failure (`Ok 0`). -/
theorem claim_C3_caller_is_parent_caller :
    ((Host.call_contract 0 0 0 0 0) instC3).1 = Except.ok 0 ∧
    (instC3.extra_ctx.call_contract (readRange instC3.memData 0 20)
        instC3.extra_ctx.get_address (readRange instC3.memData 0 32)
        (readRange instC3.memData 0 0) 0).success = true ∧
    ((Host.call_static 0 0 0 0) instC3).1 = Except.ok 0 ∧
    (instC3.extra_ctx.call_static (readRange instC3.memData 0 20)
        instC3.extra_ctx.get_address (readRange instC3.memData 0 0) 0).success = true ∧
    instC3.extra_ctx.get_address ≠ instC3.extra_ctx.get_caller := by decide

/-- C1 counterexample: against a host whose sub-call and creation fail, the
bridge returns `Ok 0` (not 1) from `call_contract`, and `create_contract`
returns `Ok 0` (not 1) while writing the zero address at the result offset. -/
theorem claim_C1_counterexample :
    ((Host.call_contract 0 0 0 0 0) instFail).1 = Except.ok 0 ∧
    (instFail.extra_ctx.call_contract (readRange instFail.memData 0 20)
        instFail.extra_ctx.get_caller (readRange instFail.memData 0 32)
        (readRange instFail.memData 0 0) 0).success = false ∧
    ((Host.create_contract 0 0 0 0 0 0 0 0) instFail).1 = Except.ok 0 ∧
    ((Host.create_contract 0 0 0 0 0 0 0 0) instFail).2.memData 0 = 0 ∧
    ((Host.create_contract 0 0 0 0 0 0 0 0) instFail).2.memData 19 = 0 := by decide

/-- C1 (amended): for every inter-contract call primitive that returns a
scalar, the scalar is 1 when the sub-call succeeded and 0 when it failed; and
`create_contract` writes `contract_address` — the zero address when absent, as
for a failed creation — at the result offset and likewise returns 1 on success
and 0 on failure. -/
theorem claim_C1_success_codes :
    (∀ (inst : Inst) (gas ao vo dof dl rv : Int),
      ((Host.call_contract gas ao vo dof dl) inst).1 = .ok rv →
      rv = (if (inst.extra_ctx.call_contract (readRange inst.memData ao.toNat 20)
              inst.extra_ctx.get_caller (readRange inst.memData vo.toNat 32)
              (readRange inst.memData dof.toNat dl.toNat) gas).success then 1 else 0)) ∧
    (∀ (inst : Inst) (gas ao vo dof dl rv : Int),
      ((Host.call_code gas ao vo dof dl) inst).1 = .ok rv →
      rv = (if (inst.extra_ctx.call_code (readRange inst.memData ao.toNat 20)
              inst.extra_ctx.get_caller (readRange inst.memData vo.toNat 32)
              (readRange inst.memData dof.toNat dl.toNat) gas).success then 1 else 0)) ∧
    (∀ (inst : Inst) (gas ao dof dl rv : Int),
      ((Host.call_delegate gas ao dof dl) inst).1 = .ok rv →
      rv = (if (inst.extra_ctx.call_delegate (readRange inst.memData ao.toNat 20)
              inst.extra_ctx.get_caller
              (readRange inst.memData dof.toNat dl.toNat) gas).success then 1 else 0)) ∧
    (∀ (inst : Inst) (gas ao dof dl rv : Int),
      ((Host.call_static gas ao dof dl) inst).1 = .ok rv →
      rv = (if (inst.extra_ctx.call_static (readRange inst.memData ao.toNat 20)
              inst.extra_ctx.get_caller
              (readRange inst.memData dof.toNat dl.toNat) gas).success then 1 else 0)) ∧
    (∀ (inst inst2 : Inst) (vo co cl dof dl so ic ro rv : Int),
      (Host.create_contract vo co cl dof dl so ic ro) inst = (.ok rv, inst2) →
      rv = (if (inst.extra_ctx.create_contract inst.extra_ctx.get_address
              (readRange inst.memData vo.toNat 32) (readRange inst.memData co.toNat cl.toNat)
              (readRange inst.memData dof.toNat dl.toNat) (Int.ofNat inst.gas_left)
              (if ic ≠ 0 then some (readRange inst.memData so.toNat 32) else none)
              (ic != 0)).success then 1 else 0) ∧
        inst2.memData = writeRange inst.memData ro.toNat
          ((inst.extra_ctx.create_contract inst.extra_ctx.get_address
              (readRange inst.memData vo.toNat 32) (readRange inst.memData co.toNat cl.toNat)
              (readRange inst.memData dof.toNat dl.toNat) (Int.ofNat inst.gas_left)
              (if ic ≠ 0 then some (readRange inst.memData so.toNat 32) else none)
              (ic != 0)).contract_address.getD (List.replicate 20 0))) :=
  ⟨call_contract_ok_code, call_code_ok_code, call_delegate_ok_code, call_static_ok_code,
    create_contract_ok_spec⟩

/-- Witness for C1: with the benign host of `instW`, the sub-call succeeds and
the bridge returns 1. -/
theorem claim_C1_witness :
    (1 : Int) = (if (instW.extra_ctx.call_contract (readRange instW.memData 0 20)
        instW.extra_ctx.get_caller (readRange instW.memData 0 32)
        (readRange instW.memData 0 0) 7).success then 1 else 0) :=
  claim_C1_success_codes.1 instW 7 0 0 0 0 1 (by decide)

/-- C10 (confirmed): with `is_create2 = 0` the salt offset is never validated
or dereferenced — the whole invocation is identical for any two salt offsets —
and with `is_create2 ≠ 0` a negative salt offset always forces an error. -/
theorem claim_C10_salt_only_create2 :
    (∀ (inst : Inst) (vo co cl dof dl s1 s2 ro : Int),
      (Host.create_contract vo co cl dof dl s1 0 ro) inst =
        (Host.create_contract vo co cl dof dl s2 0 ro) inst) ∧
    (∀ (inst : Inst) (vo co cl dof dl so ic ro : Int), ic ≠ 0 → so < 0 →
      isError (((Host.create_contract vo co cl dof dl so ic ro)) inst).1 = true) := by
  constructor
  · intro inst vo co cl dof dl s1 s2 ro
    have h1 : Host.create_salt_validate s1 0 = Host.create_salt_validate s2 0 := by
      unfold Host.create_salt_validate
      simp
    unfold Host.create_contract
    rw [h1]
  · intro inst vo co cl dof dl so ic ro hic hso
    unfold Host.create_contract
    apply isError_bind_of_cont
    intro a inst1
    apply isError_bind_of_cont
    intro b inst2
    apply isError_bind_of_cont
    intro c inst3
    apply isError_bind_of_first
    unfold Host.create_salt_validate
    rw [if_pos hic]
    apply isError_bind_of_first
    simp only [liftRead_apply]
    unfold validate_bytes32_param validate_offset_for_type
    rw [if_pos hso]
    rfl

/-- Witness for C10: concrete invocations with `is_create2 = 0` and the salt
offsets 7 and -123 coincide, and `is_create2 = 1` with salt offset -1 fails. -/
theorem claim_C10_witness :
    (Host.create_contract 0 0 0 0 0 7 0 0) instW =
      (Host.create_contract 0 0 0 0 0 (-123) 0 0) instW ∧
    isError (((Host.create_contract 0 0 0 0 0 (-1) 1 0)) instW).1 = true :=
  ⟨claim_C10_salt_only_create2.1 instW 0 0 0 0 0 7 (-123) 0,
    claim_C10_salt_only_create2.2 instW 0 0 0 0 0 (-1) 1 0 (by decide) (by decide)⟩

/-- C9 (confirmed): `storage_store` and `storage_load` never reject a negative
offset as an invalid parameter — each i32 offset is reinterpreted as its
unsigned two's-complement value `u32ofI32` — the call fails exactly when one of
the 32-byte ranges at those unsigned offsets is inaccessible, every such
failure is a memory-category error, and on failure no guest memory is
modified (`storage_store` never modifies the instance at all). -/
theorem claim_C9_storage_offsets :
    (∀ (inst : Inst) (ko vo : Int),
      ((Host.storage_store ko vo) inst).2 = inst ∧
      (isError ((Host.storage_store ko vo) inst).1 = true ↔
        ¬(inst.validate_wasm_addr (u32ofI32 ko) 32 = true ∧
          inst.validate_wasm_addr (u32ofI32 vo) 32 = true)) ∧
      (isError ((Host.storage_store ko vo) inst).1 = true →
        errCategoryOf ((Host.storage_store ko vo) inst).1 = some "memory")) ∧
    (∀ (inst : Inst) (ko ro : Int),
      (∀ kb, (inst.extra_ctx.storage_load kb).length = 32) →
      (isError ((Host.storage_load ko ro) inst).1 = true ↔
        ¬(inst.validate_wasm_addr (u32ofI32 ko) 32 = true ∧
          inst.validate_wasm_addr (u32ofI32 ro) 32 = true)) ∧
      (isError ((Host.storage_load ko ro) inst).1 = true →
        errCategoryOf ((Host.storage_load ko ro) inst).1 = some "memory" ∧
        ((Host.storage_load ko ro) inst).2.memData = inst.memData) ∧
      (isError ((Host.storage_load ko ro) inst).1 = false →
        ((Host.storage_load ko ro) inst).2.memData =
          writeRange inst.memData (u32ofI32 ro)
            (inst.extra_ctx.storage_load (readRange inst.memData (u32ofI32 ko) 32)))) :=
  ⟨storage_store_spec, storage_load_spec⟩

/-- Witness for C9: the negative key offset -4 reinterprets to `2^32 - 4`,
whose 32-byte range is out of bounds, so `storage_store` fails with a
memory-category error. -/
theorem claim_C9_witness :
    errCategoryOf ((Host.storage_store (-4) 0) instW).1 = some "memory" :=
  ((claim_C9_storage_offsets.1 instW (-4) 0).2.2) (by decide)

/-- C5 (confirmed): `expmod` on 32-byte big-endian operands follows the EVM
rules — 0 for modulus 0, 0 for modulus 1, 1 for zero exponent with modulus
greater than 1 (including `0^0`), 0 for zero base with positive exponent and
modulus greater than 1 — and otherwise encodes
`base ^ exp % modulus`, reduced to the low 256 bits, as exactly 32 big-endian
octets. -/
theorem claim_C5_expmod_spec (base exp md : Bytes)
    (hml : md.length = 32) (hmb : ∀ b ∈ md, b < 256) :
    (Traits.expmod base exp md).length = 32 ∧
    (Traits.from_bytes_be md = 0 → Traits.expmod base exp md = List.replicate 32 0) ∧
    (Traits.from_bytes_be md = 1 → Traits.expmod base exp md = List.replicate 32 0) ∧
    (Traits.from_bytes_be exp = 0 → 1 < Traits.from_bytes_be md →
      Traits.expmod base exp md = word32 1) ∧
    (Traits.from_bytes_be base = 0 → 0 < Traits.from_bytes_be exp →
      1 < Traits.from_bytes_be md → Traits.expmod base exp md = List.replicate 32 0) ∧
    (1 < Traits.from_bytes_be md →
      Traits.from_bytes_be (Traits.expmod base exp md) =
        (Traits.from_bytes_be base ^ Traits.from_bytes_be exp % Traits.from_bytes_be md)
          % 2 ^ 256) := by
  have hM32 : Traits.from_bytes_be md < 256 ^ 32 := by
    have := from_bytes_be_lt md hmb
    rwa [hml] at this
  have hpow : (256 : Nat) ^ 32 = 2 ^ 256 := by norm_num
  refine ⟨?_, ?_, ?_, ?_, ?_, ?_⟩
  · simp only [Traits.expmod]
    exact bigint_to_bytes32_length _
  · intro h0
    simp only [Traits.expmod]
    rw [if_pos h0]
    decide
  · intro h1
    simp only [Traits.expmod]
    rw [if_neg (by omega), if_pos h1]
    decide
  · intro hE hM
    simp only [Traits.expmod]
    rw [if_neg (by omega), if_neg (by omega), if_pos hE]
    decide
  · intro hB hE hM
    simp only [Traits.expmod]
    rw [if_neg (by omega), if_neg (by omega), if_neg (by omega), if_pos hB]
    decide
  · intro hM
    simp only [Traits.expmod]
    rw [if_neg (by omega), if_neg (by omega)]
    by_cases hE : Traits.from_bytes_be exp = 0
    · rw [if_pos hE, hE]
      rw [from_bytes_be_bigint_to_bytes32 1 (by norm_num)]
      rw [pow_zero]
      have h1 : 1 % Traits.from_bytes_be md = 1 := Nat.mod_eq_of_lt hM
      rw [h1]
      exact (Nat.mod_eq_of_lt (by norm_num)).symm
    · by_cases hB : Traits.from_bytes_be base = 0
      · rw [if_neg hE, if_pos hB, hB]
        rw [from_bytes_be_bigint_to_bytes32 0 (by norm_num)]
        rw [Nat.zero_pow (Nat.pos_of_ne_zero hE)]
        simp
      · rw [if_neg hE, if_neg hB]
        have hlt : Traits.from_bytes_be base ^ Traits.from_bytes_be exp
            % Traits.from_bytes_be md < 256 ^ 32 :=
          lt_trans (Nat.mod_lt _ (by omega)) hM32
        rw [from_bytes_be_bigint_to_bytes32 _ hlt]
        exact (Nat.mod_eq_of_lt (by omega)).symm

/-- Witness for C5: `2 ^ 10 mod 100` under a valid 32-byte modulus. -/
theorem claim_C5_witness :
    Traits.from_bytes_be (Traits.expmod (word32 2) (word32 10) (word32 100)) =
      (Traits.from_bytes_be (word32 2) ^ Traits.from_bytes_be (word32 10)
        % Traits.from_bytes_be (word32 100)) % 2 ^ 256 :=
  (claim_C5_expmod_spec (word32 2) (word32 10) (word32 100)
    (by decide) (by decide)).2.2.2.2.2 (by decide)

/-- C6 (confirmed): `addmod` (and `mulmod`) equal the exact unbounded sum
(product) reduced modulo `n` for non-zero `n` and yield the zero word for
`n = 0`; in particular `addmod(2^256 - 1, 100, 7)` is the 32-octet word with
low byte `0x03`. -/
theorem claim_C6_addmod_mulmod_spec (a b n : Bytes)
    (hnl : n.length = 32) (hnb : ∀ x ∈ n, x < 256) :
    (Traits.from_bytes_be n = 0 →
      Traits.addmod a b n = List.replicate 32 0 ∧
      Traits.mulmod a b n = List.replicate 32 0) ∧
    (Traits.from_bytes_be n ≠ 0 →
      Traits.from_bytes_be (Traits.addmod a b n) =
          (Traits.from_bytes_be a + Traits.from_bytes_be b) % Traits.from_bytes_be n ∧
        (Traits.addmod a b n).length = 32 ∧
        Traits.from_bytes_be (Traits.mulmod a b n) =
          (Traits.from_bytes_be a * Traits.from_bytes_be b) % Traits.from_bytes_be n ∧
        (Traits.mulmod a b n).length = 32) ∧
    Traits.addmod (List.replicate 32 255) (word32 100) (word32 7) = word32 3 := by
  have hN32 : Traits.from_bytes_be n < 256 ^ 32 := by
    have := from_bytes_be_lt n hnb
    rwa [hnl] at this
  refine ⟨?_, ?_, by decide⟩
  · intro h0
    constructor
    · simp only [Traits.addmod]
      rw [if_pos h0]
      decide
    · simp only [Traits.mulmod]
      rw [if_pos h0]
      decide
  · intro hne
    have hpos : 0 < Traits.from_bytes_be n := Nat.pos_of_ne_zero hne
    refine ⟨?_, ?_, ?_, ?_⟩
    · simp only [Traits.addmod]
      rw [if_neg hne]
      exact from_bytes_be_bigint_to_bytes32 _ (lt_trans (Nat.mod_lt _ hpos) hN32)
    · simp only [Traits.addmod]
      exact bigint_to_bytes32_length _
    · simp only [Traits.mulmod]
      rw [if_neg hne]
      exact from_bytes_be_bigint_to_bytes32 _ (lt_trans (Nat.mod_lt _ hpos) hN32)
    · simp only [Traits.mulmod]
      exact bigint_to_bytes32_length _

/-- Witness for C6: `addmod(5, 3, 7) = 1` through the general theorem. -/
theorem claim_C6_witness :
    Traits.from_bytes_be (Traits.addmod (word32 5) (word32 3) (word32 7)) =
      (Traits.from_bytes_be (word32 5) + Traits.from_bytes_be (word32 3))
        % Traits.from_bytes_be (word32 7) :=
  ((claim_C6_addmod_mulmod_spec (word32 5) (word32 3) (word32 7)
    (by decide) (by decide)).2.1 (by decide)).1

/-- The primitive leaves every byte of guest memory untouched whenever it
returns an error. -/
def MemUnchangedOnErr {α : Type} (m : Bridge α) : Prop :=
  ∀ inst, isError (m inst).1 = true → (m inst).2.memData = inst.memData

theorem memUnchangedOnErr_of_errPres {α : Type} {m : Bridge α} (h : ErrPres m) :
    MemUnchangedOnErr m :=
  fun inst herr => congrArg Inst.memData (h inst herr)

theorem memUnchangedOnErr_of_statePres {α : Type} {m : Bridge α} (h : StatePres m) :
    MemUnchangedOnErr m :=
  memUnchangedOnErr_of_errPres (errPres_of_statePres h)

/-- C7 (confirmed): for every embedded host primitive of the catalogue and
every invocation on which a bridge-level failure occurs (invalid offset,
negative length, out-of-range parameter), the primitive returns the error
without having modified any byte of guest memory: every validation precedes
every guest-memory write. -/
theorem claim_C7_no_write_before_validation :
    (∀ ro co l, MemUnchangedOnErr (Host.code_copy ro co l)) ∧
    (∀ ro dof l, MemUnchangedOnErr (Host.call_data_copy ro dof l)) ∧
    (∀ ao ro co l, MemUnchangedOnErr (Host.external_code_copy ao ro co l)) ∧
    (∀ ro dof l, MemUnchangedOnErr (Host.return_data_copy ro dof l)) ∧
    (∀ ro, MemUnchangedOnErr (Host.get_address ro)) ∧
    (∀ ro, MemUnchangedOnErr (Host.get_caller ro)) ∧
    (∀ ro, MemUnchangedOnErr (Host.get_tx_origin ro)) ∧
    (∀ ro, MemUnchangedOnErr (Host.get_call_value ro)) ∧
    (∀ ro, MemUnchangedOnErr (Host.get_chain_id ro)) ∧
    (∀ ao ro, MemUnchangedOnErr (Host.get_external_balance ao ro)) ∧
    (∀ ro, MemUnchangedOnErr (Host.get_block_coinbase ro)) ∧
    (∀ ro, MemUnchangedOnErr (Host.get_block_prev_randao ro)) ∧
    (∀ bn ro, MemUnchangedOnErr (Host.get_block_hash bn ro)) ∧
    (∀ ro, MemUnchangedOnErr (Host.get_base_fee ro)) ∧
    (∀ ro, MemUnchangedOnErr (Host.get_blob_base_fee ro)) ∧
    (∀ ro, MemUnchangedOnErr (Host.get_tx_gas_price ro)) ∧
    (∀ ao, MemUnchangedOnErr (Host.get_external_code_size ao)) ∧
    (∀ ao ro, MemUnchangedOnErr (Host.get_external_code_hash ao ro)) ∧
    (∀ dof l, MemUnchangedOnErr (Host.finish dof l)) ∧
    (∀ dof l, MemUnchangedOnErr (Host.revert dof l)) ∧
    MemUnchangedOnErr Host.invalid ∧
    (∀ ao, MemUnchangedOnErr (Host.self_destruct ao)) ∧
    (∀ ko vo, MemUnchangedOnErr (Host.storage_store ko vo)) ∧
    (∀ ko ro, MemUnchangedOnErr (Host.storage_load ko ro)) ∧
    (∀ io il ro, MemUnchangedOnErr (Host.sha256 io il ro)) ∧
    (∀ io il ro, MemUnchangedOnErr (Host.keccak256 io il ro)) ∧
    (∀ gas ao vo dof dl, MemUnchangedOnErr (Host.call_contract gas ao vo dof dl)) ∧
    (∀ gas ao vo dof dl, MemUnchangedOnErr (Host.call_code gas ao vo dof dl)) ∧
    (∀ gas ao dof dl, MemUnchangedOnErr (Host.call_delegate gas ao dof dl)) ∧
    (∀ gas ao dof dl, MemUnchangedOnErr (Host.call_static gas ao dof dl)) ∧
    (∀ vo co cl dof dl so ic ro,
      MemUnchangedOnErr (Host.create_contract vo co cl dof dl so ic ro)) ∧
    (∀ dof l nt t1 t2 t3 t4,
      MemUnchangedOnErr (Host.emit_log_event dof l nt t1 t2 t3 t4)) ∧
    (∀ ao bo no ro, MemUnchangedOnErr (Host.addmod ao bo no ro)) ∧
    (∀ ao bo no ro, MemUnchangedOnErr (Host.mulmod ao bo no ro)) ∧
    (∀ bo eo mo ro, MemUnchangedOnErr (Host.expmod bo eo mo ro)) :=
  ⟨fun ro co l => memUnchangedOnErr_of_errPres (errPres_code_copy ro co l),
    fun ro dof l => memUnchangedOnErr_of_errPres (errPres_call_data_copy ro dof l),
    fun ao ro co l => memUnchangedOnErr_of_errPres (errPres_external_code_copy ao ro co l),
    fun ro dof l => memUnchangedOnErr_of_errPres (errPres_return_data_copy ro dof l),
    fun ro => memUnchangedOnErr_of_errPres (errPres_get_address ro),
    fun ro => memUnchangedOnErr_of_errPres (errPres_get_caller ro),
    fun ro => memUnchangedOnErr_of_errPres (errPres_get_tx_origin ro),
    fun ro => memUnchangedOnErr_of_errPres (errPres_get_call_value ro),
    fun ro => memUnchangedOnErr_of_errPres (errPres_get_chain_id ro),
    fun ao ro => memUnchangedOnErr_of_errPres (errPres_get_external_balance ao ro),
    fun ro => memUnchangedOnErr_of_errPres (errPres_get_block_coinbase ro),
    fun ro => memUnchangedOnErr_of_errPres (errPres_get_block_prev_randao ro),
    fun bn ro => memUnchangedOnErr_of_errPres (errPres_get_block_hash bn ro),
    fun ro => memUnchangedOnErr_of_errPres (errPres_get_base_fee ro),
    fun ro => memUnchangedOnErr_of_errPres (errPres_get_blob_base_fee ro),
    fun ro => memUnchangedOnErr_of_errPres (errPres_get_tx_gas_price ro),
    fun ao => memUnchangedOnErr_of_statePres (statePres_get_external_code_size ao),
    fun ao ro => memUnchangedOnErr_of_errPres (errPres_get_external_code_hash ao ro),
    fun dof l => memUnchangedOnErr_of_errPres (errPres_finish dof l),
    fun dof l => memUnchangedOnErr_of_errPres (errPres_revert dof l),
    memUnchangedOnErr_of_errPres errPres_invalid,
    fun ao => memUnchangedOnErr_of_errPres (errPres_self_destruct ao),
    fun ko vo => memUnchangedOnErr_of_statePres (statePres_storage_store ko vo),
    fun ko ro => memUnchangedOnErr_of_errPres (errPres_storage_load ko ro),
    fun io il ro => memUnchangedOnErr_of_errPres (errPres_sha256 io il ro),
    fun io il ro => memUnchangedOnErr_of_errPres (errPres_keccak256 io il ro),
    fun gas ao vo dof dl =>
      memUnchangedOnErr_of_statePres (statePres_call_contract gas ao vo dof dl),
    fun gas ao vo dof dl =>
      memUnchangedOnErr_of_statePres (statePres_call_code gas ao vo dof dl),
    fun gas ao dof dl =>
      memUnchangedOnErr_of_statePres (statePres_call_delegate gas ao dof dl),
    fun gas ao dof dl =>
      memUnchangedOnErr_of_statePres (statePres_call_static gas ao dof dl),
    fun vo co cl dof dl so ic ro =>
      memUnchangedOnErr_of_errPres (errPres_create_contract vo co cl dof dl so ic ro),
    fun dof l nt t1 t2 t3 t4 =>
      memUnchangedOnErr_of_statePres (statePres_emit_log_event dof l nt t1 t2 t3 t4),
    fun ao bo no ro => memUnchangedOnErr_of_errPres (errPres_addmod ao bo no ro),
    fun ao bo no ro => memUnchangedOnErr_of_errPres (errPres_mulmod ao bo no ro),
    fun bo eo mo ro => memUnchangedOnErr_of_errPres (errPres_expmod bo eo mo ro)⟩

/-- Witness for C7: `code_copy` with an out-of-range destination fails and
leaves the 0xAA-filled memory of `instW` untouched. -/
theorem claim_C7_witness :
    ((Host.code_copy 100 0 4) instW).2.memData = instW.memData :=
  claim_C7_no_write_before_validation.1 100 0 4 instW (by decide)

/-- A trivial concrete gas pipeline over the unit module type. -/
def envTriv : GasPipeline Unit ConstantCostRules where
  from_bytes := fun _ => .ok ()
  inject := fun m _ => .ok m
  serialize := fun _ => .ok []

/-- Witness for C8: the refinement at a concrete pipeline and input. -/
theorem claim_C8_witness :
    transform_default envTriv [0, 97, 115, 109] =
      transform_with_rules envTriv [0, 97, 115, 109] (ConstantCostRules.new 1 8192 1) :=
  claim_C8_transform_default_refines envTriv [0, 97, 115, 109]

/-- Witness for C4: the amended field description at concrete arguments. -/
theorem claim_C4_witness :
    (out_of_bounds_error 0 10 "read_bytes").function = "unknown" :=
  (claim_C4_amended_error_fields 0 10 "read_bytes" "code_copy" "num_topics" "5").1
